import Mathlib

/-!
# rpiasgige client example `basic.cpp`: session controller

Shallow embedding of `code/client/cpp_api/examples/basic.cpp`.

The program talks to a remote camera through `rpiasgige::client::Device`.  The camera, the
performance counter and the keyboard are outside the program: they are an explicit
environment `Env` that answers every request as a function of everything that happened
before.  Every request, its reply and every line written by the program are appended to a
chronological event log, so that statements about the order and the number of calls are
statements about that log.
-/

namespace Basic

/-! ## Values -/

/-- A C++ `double`, by numerical value: a finite value, an infinity or a NaN.  The two
zeros are one value (they compare equal with `==`). -/
inductive Double where
  | finite (q : ℚ)
  | posInf
  | negInf
  | nan
deriving DecidableEq

/-- Conversion `int → double` (exact for every 32-bit `int`). -/
def Double.ofInt (n : Int) : Double := Double.finite n

/-- The C++ `==` on doubles: a NaN is equal to nothing. -/
def Double.eq : Double → Double → Bool
  | Double.finite a, Double.finite b => decide (a = b)
  | Double.posInf, Double.posInf => true
  | Double.negInf, Double.negInf => true
  | _, _ => false

/-- The test `std::abs(actual_fps_settings - fps) < 0.1` of line 107.  `0.1` is the double
nearest to one tenth, `3602879701896397 / 2^55`.  For an integral `fps` the subtraction is
exact whenever the difference is that small, so the test is the exact comparison. -/
def fps_close : Double → Double → Bool
  | Double.finite a, Double.finite fps =>
      decide (|a - fps| < (3602879701896397 : ℚ) / 36028797018963968)
  | _, _ => false

/-- Value of a C++ `int` expression: the mathematical result wrapped to 32 bits. -/
def int32 (x : Int) : Int := (x + 2147483648) % 4294967296 - 2147483648

/-- The OpenCV function `cv::VideoWriter::fourcc`: the low bytes of the four characters,
packed into an `int` with the first character lowest. -/
def fourcc (c1 c2 c3 c4 : Char) : Int :=
  int32 ((c1.toNat % 256 : Nat) + (c2.toNat % 256 : Nat) * 256
    + (c3.toNat % 256 : Nat) * 65536 + (c4.toNat % 256 : Nat) * 16777216)

/-! ## Requests, replies, events -/

/-- The camera properties used by the program (`cv::CAP_PROP_*`). -/
inductive Property where
  | CAP_PROP_FRAME_WIDTH
  | CAP_PROP_FRAME_HEIGHT
  | CAP_PROP_FOURCC
  | CAP_PROP_FPS
  | CAP_PROP_AUTOFOCUS
deriving DecidableEq

/-- A call of a `Device` method.  `keep_alive` is `none` where the source omits the
argument (the default of the header applies). -/
inductive Call where
  | ping (keep_alive : Option Bool)
  | isOpened (keep_alive : Option Bool)
  | open_ (keep_alive : Option Bool)
  | set (propId : Property) (value : Double) (keep_alive : Option Bool)
  | get (propId : Property) (keep_alive : Option Bool)
  | retrieve (keep_alive : Option Bool)
  | release (keep_alive : Option Bool)
deriving DecidableEq

/-- What a call gave back: a `bool`, a `double`, or a thrown `RemoteException`. -/
inductive Reply where
  | flag (b : Bool)
  | value (v : Double)
  | RemoteException
deriving DecidableEq

/-- The reply to a `bool`-valued call as it is logged: the boolean, or the exception. -/
def Reply.ofFlag : Option Bool → Reply
  | some b => Reply.flag b
  | none => Reply.RemoteException

/-- The lines the program writes, one constructor per output statement. -/
inductive Msg where
  /-- Line 33: "Nice! The camera is opened already!" -/
  | opened_already
  /-- Line 37: "Ops! Something is wrong! Failed to open the camera! Exiting ..." -/
  | failed_to_open
  /-- Line 57: "Frame width set to <frame_width>!" -/
  | frame_width_set (frame_width : Double)
  /-- Line 61: "Failed to set frame width!" -/
  | failed_frame_width
  /-- Line 67: "Frame height set to <frame_height>!" -/
  | frame_height_set (frame_height : Double)
  /-- Line 71: "Failed to set frame height!" -/
  | failed_frame_height
  /-- Line 77: "MJPG encoding set!" -/
  | mjpg_set
  /-- Line 81: "Failed to set MJPG encoding!" -/
  | failed_mjpg
  /-- Line 93: "Setting auto focus ON!" -/
  | auto_focus_on
  /-- Line 97: "Setting auto focus OFF!" -/
  | auto_focus_off
  /-- Line 108: "Nice! Your camera seems to accept setting fps to <fps> !!!" -/
  | fps_accepted (fps : Double)
  /-- Line 113: "Sorry, you camera seems to do not support run at 60 fps. ..." -/
  | fps_not_supported
  /-- Line 160: "Ops! Camera didn't reply. Exiting..." -/
  | no_reply
  /-- Line 164: "Great! Camera replied, let's move ahead!" -/
  | camera_replied
  /-- Line 175: "Camera successfully replied to the <i>-th ping!" -/
  | ping_replied (i : Int)
  /-- Lines 189 and 228: "Failed to open camera! Attempt <open_camera_attempt>" -/
  | failed_attempt (open_camera_attempt : Int)
  /-- Line 221: "This is not good. Failed to grab the <i>-th frame!" -/
  | failed_to_grab (i : Int)
  /-- Line 235: "fps: ..., mean data read size: ..." -/
  | fps_report
  /-- Line 251: "Dammit! Failed to close the camera!" -/
  | failed_to_close
  /-- Line 256: "Camera closed successfuly!" -/
  | camera_closed
deriving DecidableEq

/-- One observable step of the program. -/
inductive Event where
  /-- A device call together with what it gave back. -/
  | request (c : Call) (r : Reply)
  /-- A line on `std::cout` (or `printf`). -/
  | cout (m : Msg)
  /-- A line on `std::cerr`. -/
  | cerr (m : Msg)
  /-- The call `std::this_thread::sleep_for(std::chrono::milliseconds(ms))`. -/
  | sleep_for (ms : Nat)
  /-- The call `performance_counter.reset()`. -/
  | reset
  /-- The call `performance_counter.loop(image_size)` and its result. -/
  | loop (image_size : Int) (window_complete : Bool)
  /-- The call `cv::imshow(window_title, mat)`. -/
  | imshow
  /-- The call `cv::waitKey(1)` and its result. -/
  | waitKey (key : Int)
deriving DecidableEq

/-- The chronological event log, oldest event first. -/
abbrev Log := List Event

/-- Everything outside the program.  Each answer may depend on the whole history. -/
structure Env where
  /-- Reply to a `bool`-valued device call; `none` is a thrown `RemoteException`. -/
  flag : Log → Call → Option Bool
  /-- Reply to `Device::get`; `none` is a thrown `RemoteException`. -/
  value : Log → Call → Option Double
  /-- The size `mat.total() * mat.elemSize()` of the frame just retrieved, as an `int`. -/
  image_size : Log → Int
  /-- Result of `performance_counter.loop(image_size)`. -/
  loop : Log → Int → Bool
  /-- Result of `cv::waitKey(1)`. -/
  waitKey : Log → Int

/-- The command line values read through `cv::CommandLineParser` (lines 131-138). -/
structure Parser where
  frame_width : Int
  frame_height : Int
  fps : Int
  auto_focus : String
  show_images : Bool
  max_iterations : Int

/-! ## `open_camera` (lines 24-120) -/

/-- A `bool`-valued device call inside the `try` block of `open_camera`.  When the call
throws, control goes to the `catch` of line 116: `success = false`, and line 119 returns
it.  Otherwise the block goes on with `k`. -/
def try_flag (d : Env) (c : Call) (log : Log) (k : Bool → Log → Bool × Log) : Bool × Log :=
  match d.flag log c with
  | none => (false, log ++ [Event.request c Reply.RemoteException])
  | some b => k b (log ++ [Event.request c (Reply.flag b)])

/-- A `Device::get` inside the `try` block of `open_camera`, as `try_flag`. -/
def try_value (d : Env) (c : Call) (log : Log) (k : Double → Log → Bool × Log) :
    Bool × Log :=
  match d.value log c with
  | none => (false, log ++ [Event.request c Reply.RemoteException])
  | some v => k v (log ++ [Event.request c (Reply.value v)])

/-- Lines 104-115 of `open_camera`: the frame rate read-back and `success = true`. -/
def open_camera_fps (d : Env) (keep_alive : Bool) (fps : Double) (log : Log) : Bool × Log :=
  try_value d (Call.get Property.CAP_PROP_FPS (some keep_alive)) log fun v log =>
    if v.eq fps then
      try_value d (Call.get Property.CAP_PROP_FPS none) log fun actual_fps_settings log =>
        if fps_close actual_fps_settings fps then
          (true, log ++ [Event.cout (Msg.fps_accepted fps)])
        else
          (true, log)
    else
      (true, log ++ [Event.cerr Msg.fps_not_supported])

/-- Lines 89-99 of `open_camera`, followed by lines 104-115. -/
def open_camera_auto_focus (d : Env) (keep_alive : Bool) (parser : Parser) (fps : Double)
    (log : Log) : Bool × Log :=
  let auto_focus := parser.auto_focus
  if auto_focus = "on" then
    try_flag d (Call.set Property.CAP_PROP_AUTOFOCUS (Double.ofInt 1) (some keep_alive))
      (log ++ [Event.cout Msg.auto_focus_on]) fun _ log =>
        open_camera_fps d keep_alive fps log
  else if auto_focus = "off" then
    try_flag d (Call.set Property.CAP_PROP_AUTOFOCUS (Double.ofInt 0) (some keep_alive))
      (log ++ [Event.cout Msg.auto_focus_off]) fun _ log =>
        open_camera_fps d keep_alive fps log
  else
    open_camera_fps d keep_alive fps log

/-- Lines 45-115 of `open_camera`: the four `set` calls, the three checked read-backs,
then auto focus and frame rate. -/
def open_camera_properties (d : Env) (keep_alive : Bool) (parser : Parser) (log : Log) :
    Bool × Log :=
  let frame_width := Double.ofInt parser.frame_width
  let frame_height := Double.ofInt parser.frame_height
  let mjpg := Double.ofInt (fourcc 'M' 'J' 'P' 'G')
  let fps := Double.ofInt parser.fps
  try_flag d (Call.set Property.CAP_PROP_FRAME_WIDTH frame_width (some keep_alive)) log
    fun _ log =>
  try_flag d (Call.set Property.CAP_PROP_FRAME_HEIGHT frame_height (some keep_alive)) log
    fun _ log =>
  try_flag d (Call.set Property.CAP_PROP_FOURCC mjpg (some keep_alive)) log fun _ log =>
  try_flag d (Call.set Property.CAP_PROP_FPS fps (some keep_alive)) log fun _ log =>
  try_value d (Call.get Property.CAP_PROP_FRAME_WIDTH (some keep_alive)) log fun v log =>
  if v.eq frame_width then
    try_value d (Call.get Property.CAP_PROP_FRAME_HEIGHT (some keep_alive))
      (log ++ [Event.cout (Msg.frame_width_set frame_width)]) fun v log =>
    if v.eq frame_height then
      try_value d (Call.get Property.CAP_PROP_FOURCC (some keep_alive))
        (log ++ [Event.cout (Msg.frame_height_set frame_height)]) fun v log =>
      if v.eq mjpg then
        open_camera_auto_focus d keep_alive parser fps (log ++ [Event.cout Msg.mjpg_set])
      else
        (false, log ++ [Event.cerr Msg.failed_mjpg])
    else
      (false, log ++ [Event.cerr Msg.failed_frame_height])
  else
    (false, log ++ [Event.cerr Msg.failed_frame_width])

/-- The function `open_camera`: its result and the log it leaves.  A `RemoteException`
never leaves it (every device call is inside the `try` block). -/
def open_camera (d : Env) (keep_alive : Bool) (parser : Parser) (log : Log) : Bool × Log :=
  try_flag d (Call.isOpened (some keep_alive)) log fun opened log =>
    if opened then
      open_camera_properties d keep_alive parser (log ++ [Event.cout Msg.opened_already])
    else
      try_flag d (Call.open_ (some keep_alive)) log fun opened log =>
        if !opened then
          (false, log ++ [Event.cerr Msg.failed_to_open])
        else
          open_camera_properties d keep_alive parser log

/-! ## `main` (lines 126-260) -/

/-- How far a part of `main` got with the fuel it was given. -/
inductive Run (α : Type) where
  /-- The part ran to its end and left this state. -/
  | done (s : α)
  /-- A `RemoteException` left `main`: the process is terminated. -/
  | terminated (log : Log)
  /-- The part is still running when the fuel is used up. -/
  | running (log : Log)

/-- The local variables of `main` that the loops share, with the event log. -/
structure MainState where
  log : Log
  open_camera_attempt : Int
  success : Bool
  key : Int
  notify_loss_of_connection : Bool

/-- The log a run has left, finished or not. -/
def Run.log : Run MainState → Log
  | Run.done s => s.log
  | Run.terminated log => log
  | Run.running log => log

/-- Lines 173-177: `for (int i = 0; i < 10; ++i)` with a second `++i` in the output
statement of the success branch.  The call is outside any `try`. -/
def main_ping_loop (d : Env) (keep_alive : Bool) : Nat → Int → Log → Run (Int × Log)
  | 0, _, log => Run.running log
  | fuel + 1, i, log =>
    if i < 10 then
      match d.flag log (Call.ping (some keep_alive)) with
      | none =>
        Run.terminated
          (log ++ [Event.request (Call.ping (some keep_alive)) Reply.RemoteException])
      | some true =>
        let i := int32 (i + 1)
        main_ping_loop d keep_alive fuel (int32 (i + 1))
          (log ++ [Event.request (Call.ping (some keep_alive)) (Reply.flag true),
                   Event.cout (Msg.ping_replied i)])
      | some false =>
        main_ping_loop d keep_alive fuel (int32 (i + 1))
          (log ++ [Event.request (Call.ping (some keep_alive)) (Reply.flag false)])
    else
      Run.done (i, log)

/-- The locals of `main` with their initial values: `open_camera_attempt = 1` (line 178),
`success = false` (line 180), `key = 0` (line 202), `notify_loss_of_connection = true`
(line 209). -/
def startup_state (log : Log) : MainState :=
  { log := log, open_camera_attempt := 1, success := false, key := 0,
    notify_loss_of_connection := true }

/-- Lines 189-190, and the same statements in lines 228-229: the failed attempt is reported
with the attempt counter, the counter is incremented, and the program sleeps 2000 ms. -/
def report_failed_attempt (s : MainState) : MainState :=
  { s with
    log := s.log ++ [Event.cerr (Msg.failed_attempt s.open_camera_attempt),
                     Event.sleep_for 2000]
    open_camera_attempt := int32 (s.open_camera_attempt + 1) }

/-- Lines 182-192: `while (!success)`.  `open_camera` throws nothing, so the `catch` of
line 185 is never entered. -/
def main_startup_loop (d : Env) (keep_alive : Bool) (parser : Parser) :
    Nat → MainState → Run MainState
  | 0, s => Run.running s.log
  | fuel + 1, s =>
    if !s.success then
      let r := open_camera d keep_alive parser s.log
      let s := { s with success := r.1, log := r.2 }
      if !s.success then
        main_startup_loop d keep_alive parser fuel (report_failed_attempt s)
      else
        main_startup_loop d keep_alive parser fuel s
    else
      Run.done s

/-- Lines 227-230: `while (!open_camera(camera, keep_alive, parser))`. -/
def main_reopen_loop (d : Env) (keep_alive : Bool) (parser : Parser) :
    Nat → MainState → Run MainState
  | 0, s => Run.running s.log
  | fuel + 1, s =>
    let r := open_camera d keep_alive parser s.log
    if !r.1 then
      main_reopen_loop d keep_alive parser fuel (report_failed_attempt { s with log := r.2 })
    else
      Run.done { s with log := r.2 }

/-- Lines 213-242: the body of the capture loop, for the loop index `i`.  The fuel is for
the reconnect loop of line 227. -/
def main_capture_body (d : Env) (keep_alive : Bool) (parser : Parser)
    (fuel : Nat) (i : Int) (s : MainState) : Run MainState :=
  let reply := d.flag s.log (Call.retrieve (some keep_alive))
  let s := { s with
    success := reply.getD false
    log := s.log ++ [Event.request (Call.retrieve (some keep_alive)) (Reply.ofFlag reply)] }
  if !s.success then
    let s := if s.notify_loss_of_connection then
        { s with log := s.log ++ [Event.cerr (Msg.failed_to_grab i)] }
      else s
    let s := { s with log := s.log ++ [Event.reset] }
    main_reopen_loop d keep_alive parser fuel s
  else
    let s := { s with notify_loss_of_connection := true }
    let image_size := d.image_size s.log
    let window_complete := d.loop s.log image_size
    let s := { s with log := s.log ++ [Event.loop image_size window_complete] }
    let s := if window_complete then
        { s with log := s.log ++ [Event.cout Msg.fps_report] }
      else s
    if parser.show_images then
      let key := d.waitKey (s.log ++ [Event.imshow])
      Run.done { s with log := s.log ++ [Event.imshow, Event.waitKey key], key := key }
    else
      Run.done s

/-- Lines 211-243: `for(int i = 0; key != 27 && i < max_iterations; i += inc)`. -/
def main_capture_loop (d : Env) (keep_alive : Bool) (parser : Parser)
    (max_iterations inc : Int) : Nat → Int → MainState → Run MainState
  | 0, _, s => Run.running s.log
  | fuel + 1, i, s =>
    if s.key ≠ 27 ∧ i < max_iterations then
      match main_capture_body d keep_alive parser fuel i s with
      | Run.done s =>
        main_capture_loop d keep_alive parser max_iterations inc fuel (int32 (i + inc)) s
      | Run.terminated log => Run.terminated log
      | Run.running log => Run.running log
    else
      Run.done s

/-- Line 204: `std::max(1, parser.get<int>("max-iterations"))`. -/
def max_iterations (parser : Parser) : Int := max 1 parser.max_iterations

/-- Line 205: `(max_iterations > 1)?1:0`. -/
def inc (parser : Parser) : Int := if max_iterations parser > 1 then 1 else 0

/-- How `main` ended. -/
inductive Outcome where
  /-- The statement `return 0` of line 259. -/
  | returned
  /-- The call `exit(0)` of line 161 or 252. -/
  | exited
  /-- An uncaught `RemoteException`. -/
  | terminated
  /-- Still running when the fuel is used up. -/
  | running
deriving DecidableEq

/-- Lines 247-259: the final `release` with `keep_alive = false`. -/
def main_release (d : Env) (log : Log) : Outcome × Log :=
  match d.flag log (Call.release (some false)) with
  | none =>
    (Outcome.terminated,
      log ++ [Event.request (Call.release (some false)) Reply.RemoteException])
  | some false =>
    (Outcome.exited, log ++ [Event.request (Call.release (some false)) (Reply.flag false),
      Event.cerr Msg.failed_to_close])
  | some true =>
    (Outcome.returned, log ++ [Event.request (Call.release (some false)) (Reply.flag true),
      Event.cout Msg.camera_closed])

/-- The function `main` from line 159 on, started with an empty log.  The handler for
`SIGINT` installed in lines 150-155 is not part of the model. -/
def main (d : Env) (parser : Parser) (fuel : Nat) : Outcome × Log :=
  match d.flag [] (Call.ping none) with
  | none => (Outcome.terminated, [Event.request (Call.ping none) Reply.RemoteException])
  | some false =>
    (Outcome.exited, [Event.request (Call.ping none) (Reply.flag false), Event.cerr Msg.no_reply])
  | some true =>
    let log := [Event.request (Call.ping none) (Reply.flag true), Event.cout Msg.camera_replied]
    let keep_alive := true
    match main_ping_loop d keep_alive fuel 0 log with
    | Run.terminated log => (Outcome.terminated, log)
    | Run.running log => (Outcome.running, log)
    | Run.done (_, log) =>
      match main_startup_loop d keep_alive parser fuel (startup_state log) with
      | Run.terminated log => (Outcome.terminated, log)
      | Run.running log => (Outcome.running, log)
      | Run.done s =>
        match main_capture_loop d keep_alive parser (max_iterations parser) (inc parser)
            fuel 0 s with
        | Run.terminated log => (Outcome.terminated, log)
        | Run.running log => (Outcome.running, log)
        | Run.done s => main_release d s.log


/-! ## Descriptions of the event sequences

The predicates below describe, without the environment, which events a part of
`open_camera` can add to the log and with which result.  They are not part of the
embedding: each is proved to hold of the corresponding function, and is used to reason by
cases on an attempt. -/

/-- The events that lines 104-115 can add, and the result they lead to. -/
inductive FpsTrace (keep_alive : Bool) (fps : Double) : Bool → List Event → Prop where
  | raised :
    FpsTrace keep_alive fps false
      [Event.request (Call.get Property.CAP_PROP_FPS (some keep_alive)) Reply.RemoteException]
  | differs (v : Double) (h : v.eq fps = false) :
    FpsTrace keep_alive fps true
      [Event.request (Call.get Property.CAP_PROP_FPS (some keep_alive)) (Reply.value v),
       Event.cerr Msg.fps_not_supported]
  | raised_again (v : Double) (h : v.eq fps = true) :
    FpsTrace keep_alive fps false
      [Event.request (Call.get Property.CAP_PROP_FPS (some keep_alive)) (Reply.value v),
       Event.request (Call.get Property.CAP_PROP_FPS none) Reply.RemoteException]
  | accepted (v v2 : Double) (h : v.eq fps = true) (hc : fps_close v2 fps = true) :
    FpsTrace keep_alive fps true
      [Event.request (Call.get Property.CAP_PROP_FPS (some keep_alive)) (Reply.value v),
       Event.request (Call.get Property.CAP_PROP_FPS none) (Reply.value v2),
       Event.cout (Msg.fps_accepted fps)]
  | silent (v v2 : Double) (h : v.eq fps = true) (hc : fps_close v2 fps = false) :
    FpsTrace keep_alive fps true
      [Event.request (Call.get Property.CAP_PROP_FPS (some keep_alive)) (Reply.value v),
       Event.request (Call.get Property.CAP_PROP_FPS none) (Reply.value v2)]

/-- The events that lines 89-115 can add, and the result they lead to. -/
inductive AutoFocusTrace (keep_alive : Bool) (auto_focus : String) (fps : Double) :
    Bool → List Event → Prop where
  | focus_on_raised (h : auto_focus = "on") :
    AutoFocusTrace keep_alive auto_focus fps false
      [Event.cout Msg.auto_focus_on,
       Event.request (Call.set Property.CAP_PROP_AUTOFOCUS (Double.ofInt 1) (some keep_alive))
         Reply.RemoteException]
  | focus_on (h : auto_focus = "on") (b0 : Bool) (b : Bool) (rest : List Event)
      (hr : FpsTrace keep_alive fps b rest) :
    AutoFocusTrace keep_alive auto_focus fps b
      ([Event.cout Msg.auto_focus_on,
        Event.request (Call.set Property.CAP_PROP_AUTOFOCUS (Double.ofInt 1) (some keep_alive))
          (Reply.flag b0)] ++ rest)
  | focus_off_raised (h1 : auto_focus ≠ "on") (h : auto_focus = "off") :
    AutoFocusTrace keep_alive auto_focus fps false
      [Event.cout Msg.auto_focus_off,
       Event.request (Call.set Property.CAP_PROP_AUTOFOCUS (Double.ofInt 0) (some keep_alive))
         Reply.RemoteException]
  | focus_off (h1 : auto_focus ≠ "on") (h : auto_focus = "off") (b0 : Bool) (b : Bool)
      (rest : List Event) (hr : FpsTrace keep_alive fps b rest) :
    AutoFocusTrace keep_alive auto_focus fps b
      ([Event.cout Msg.auto_focus_off,
        Event.request (Call.set Property.CAP_PROP_AUTOFOCUS (Double.ofInt 0) (some keep_alive))
          (Reply.flag b0)] ++ rest)
  | focus_unset (h1 : auto_focus ≠ "on") (h2 : auto_focus ≠ "off") (b : Bool)
      (rest : List Event)
      (hr : FpsTrace keep_alive fps b rest) :
    AutoFocusTrace keep_alive auto_focus fps b rest

/-- The four `set` requests of lines 50-53 with the replies `b1 .. b4`. -/
def set_events (keep_alive : Bool) (parser : Parser) (b1 b2 b3 b4 : Bool) : List Event :=
  [Event.request (Call.set Property.CAP_PROP_FRAME_WIDTH (Double.ofInt parser.frame_width)
      (some keep_alive)) (Reply.flag b1),
   Event.request (Call.set Property.CAP_PROP_FRAME_HEIGHT (Double.ofInt parser.frame_height)
      (some keep_alive)) (Reply.flag b2),
   Event.request (Call.set Property.CAP_PROP_FOURCC (Double.ofInt (fourcc 'M' 'J' 'P' 'G'))
      (some keep_alive)) (Reply.flag b3),
   Event.request (Call.set Property.CAP_PROP_FPS (Double.ofInt parser.fps)
      (some keep_alive)) (Reply.flag b4)]

/-- The events that lines 45-115 can add, and the result they lead to. -/
inductive PropertiesTrace (keep_alive : Bool) (parser : Parser) : Bool → List Event → Prop where
  | set_width_raised :
    PropertiesTrace keep_alive parser false
      [Event.request (Call.set Property.CAP_PROP_FRAME_WIDTH (Double.ofInt parser.frame_width)
        (some keep_alive)) Reply.RemoteException]
  | set_height_raised (b1 : Bool) :
    PropertiesTrace keep_alive parser false
      [Event.request (Call.set Property.CAP_PROP_FRAME_WIDTH (Double.ofInt parser.frame_width)
        (some keep_alive)) (Reply.flag b1),
       Event.request (Call.set Property.CAP_PROP_FRAME_HEIGHT
        (Double.ofInt parser.frame_height) (some keep_alive)) Reply.RemoteException]
  | set_fourcc_raised (b1 b2 : Bool) :
    PropertiesTrace keep_alive parser false
      [Event.request (Call.set Property.CAP_PROP_FRAME_WIDTH (Double.ofInt parser.frame_width)
        (some keep_alive)) (Reply.flag b1),
       Event.request (Call.set Property.CAP_PROP_FRAME_HEIGHT
        (Double.ofInt parser.frame_height) (some keep_alive)) (Reply.flag b2),
       Event.request (Call.set Property.CAP_PROP_FOURCC (Double.ofInt (fourcc 'M' 'J' 'P' 'G'))
        (some keep_alive)) Reply.RemoteException]
  | set_fps_raised (b1 b2 b3 : Bool) :
    PropertiesTrace keep_alive parser false
      [Event.request (Call.set Property.CAP_PROP_FRAME_WIDTH (Double.ofInt parser.frame_width)
        (some keep_alive)) (Reply.flag b1),
       Event.request (Call.set Property.CAP_PROP_FRAME_HEIGHT
        (Double.ofInt parser.frame_height) (some keep_alive)) (Reply.flag b2),
       Event.request (Call.set Property.CAP_PROP_FOURCC (Double.ofInt (fourcc 'M' 'J' 'P' 'G'))
        (some keep_alive)) (Reply.flag b3),
       Event.request (Call.set Property.CAP_PROP_FPS (Double.ofInt parser.fps)
        (some keep_alive)) Reply.RemoteException]
  | get_width_raised (b1 b2 b3 b4 : Bool) :
    PropertiesTrace keep_alive parser false
      (set_events keep_alive parser b1 b2 b3 b4 ++
       [Event.request (Call.get Property.CAP_PROP_FRAME_WIDTH (some keep_alive))
         Reply.RemoteException])
  | width_differs (b1 b2 b3 b4 : Bool) (v : Double)
      (h : v.eq (Double.ofInt parser.frame_width) = false) :
    PropertiesTrace keep_alive parser false
      (set_events keep_alive parser b1 b2 b3 b4 ++
       [Event.request (Call.get Property.CAP_PROP_FRAME_WIDTH (some keep_alive)) (Reply.value v),
        Event.cerr Msg.failed_frame_width])
  | get_height_raised (b1 b2 b3 b4 : Bool) :
    PropertiesTrace keep_alive parser false
      (set_events keep_alive parser b1 b2 b3 b4 ++
       [Event.request (Call.get Property.CAP_PROP_FRAME_WIDTH (some keep_alive))
         (Reply.value (Double.ofInt parser.frame_width)),
        Event.cout (Msg.frame_width_set (Double.ofInt parser.frame_width)),
        Event.request (Call.get Property.CAP_PROP_FRAME_HEIGHT (some keep_alive))
         Reply.RemoteException])
  | height_differs (b1 b2 b3 b4 : Bool) (v : Double)
      (h : v.eq (Double.ofInt parser.frame_height) = false) :
    PropertiesTrace keep_alive parser false
      (set_events keep_alive parser b1 b2 b3 b4 ++
       [Event.request (Call.get Property.CAP_PROP_FRAME_WIDTH (some keep_alive))
         (Reply.value (Double.ofInt parser.frame_width)),
        Event.cout (Msg.frame_width_set (Double.ofInt parser.frame_width)),
        Event.request (Call.get Property.CAP_PROP_FRAME_HEIGHT (some keep_alive))
         (Reply.value v),
        Event.cerr Msg.failed_frame_height])
  | get_fourcc_raised (b1 b2 b3 b4 : Bool) :
    PropertiesTrace keep_alive parser false
      (set_events keep_alive parser b1 b2 b3 b4 ++
       [Event.request (Call.get Property.CAP_PROP_FRAME_WIDTH (some keep_alive))
         (Reply.value (Double.ofInt parser.frame_width)),
        Event.cout (Msg.frame_width_set (Double.ofInt parser.frame_width)),
        Event.request (Call.get Property.CAP_PROP_FRAME_HEIGHT (some keep_alive))
         (Reply.value (Double.ofInt parser.frame_height)),
        Event.cout (Msg.frame_height_set (Double.ofInt parser.frame_height)),
        Event.request (Call.get Property.CAP_PROP_FOURCC (some keep_alive))
         Reply.RemoteException])
  | fourcc_differs (b1 b2 b3 b4 : Bool) (v : Double)
      (h : v.eq (Double.ofInt (fourcc 'M' 'J' 'P' 'G')) = false) :
    PropertiesTrace keep_alive parser false
      (set_events keep_alive parser b1 b2 b3 b4 ++
       [Event.request (Call.get Property.CAP_PROP_FRAME_WIDTH (some keep_alive))
         (Reply.value (Double.ofInt parser.frame_width)),
        Event.cout (Msg.frame_width_set (Double.ofInt parser.frame_width)),
        Event.request (Call.get Property.CAP_PROP_FRAME_HEIGHT (some keep_alive))
         (Reply.value (Double.ofInt parser.frame_height)),
        Event.cout (Msg.frame_height_set (Double.ofInt parser.frame_height)),
        Event.request (Call.get Property.CAP_PROP_FOURCC (some keep_alive)) (Reply.value v),
        Event.cerr Msg.failed_mjpg])
  | checked (b1 b2 b3 b4 : Bool) (b : Bool) (rest : List Event)
      (hr : AutoFocusTrace keep_alive parser.auto_focus (Double.ofInt parser.fps) b rest) :
    PropertiesTrace keep_alive parser b
      (set_events keep_alive parser b1 b2 b3 b4 ++
       [Event.request (Call.get Property.CAP_PROP_FRAME_WIDTH (some keep_alive))
         (Reply.value (Double.ofInt parser.frame_width)),
        Event.cout (Msg.frame_width_set (Double.ofInt parser.frame_width)),
        Event.request (Call.get Property.CAP_PROP_FRAME_HEIGHT (some keep_alive))
         (Reply.value (Double.ofInt parser.frame_height)),
        Event.cout (Msg.frame_height_set (Double.ofInt parser.frame_height)),
        Event.request (Call.get Property.CAP_PROP_FOURCC (some keep_alive))
         (Reply.value (Double.ofInt (fourcc 'M' 'J' 'P' 'G'))),
        Event.cout Msg.mjpg_set] ++ rest)

/-- The events that a call of `open_camera` can add, and the result it returns. -/
inductive AttemptTrace (keep_alive : Bool) (parser : Parser) : Bool → List Event → Prop where
  | isOpened_raised :
    AttemptTrace keep_alive parser false
      [Event.request (Call.isOpened (some keep_alive)) Reply.RemoteException]
  | already_open (b : Bool) (rest : List Event) (hr : PropertiesTrace keep_alive parser b rest) :
    AttemptTrace keep_alive parser b
      ([Event.request (Call.isOpened (some keep_alive)) (Reply.flag true),
        Event.cout Msg.opened_already] ++ rest)
  | open_raised :
    AttemptTrace keep_alive parser false
      [Event.request (Call.isOpened (some keep_alive)) (Reply.flag false),
       Event.request (Call.open_ (some keep_alive)) Reply.RemoteException]
  | open_failed :
    AttemptTrace keep_alive parser false
      [Event.request (Call.isOpened (some keep_alive)) (Reply.flag false),
       Event.request (Call.open_ (some keep_alive)) (Reply.flag false),
       Event.cerr Msg.failed_to_open]
  | opened (b : Bool) (rest : List Event) (hr : PropertiesTrace keep_alive parser b rest) :
    AttemptTrace keep_alive parser b
      ([Event.request (Call.isOpened (some keep_alive)) (Reply.flag false),
        Event.request (Call.open_ (some keep_alive)) (Reply.flag true)] ++ rest)

/-! ## Observations on the log -/

/-- The device calls among a list of events, in order. -/
def calls (events : List Event) : List Call :=
  events.filterMap fun e =>
    match e with
    | Event.request c _ => some c
    | _ => none

/-- The attempt numbers written by lines 189 and 228 among a list of events, in order. -/
def reported_attempts (events : List Event) : List Int :=
  events.filterMap fun e =>
    match e with
    | Event.cerr (Msg.failed_attempt n) => some n
    | _ => none

/-- The replies to the frame rate read-backs among a list of events, in order. -/
def fps_readbacks (events : List Event) : List Reply :=
  events.filterMap fun e =>
    match e with
    | Event.request (Call.get Property.CAP_PROP_FPS _) r => some r
    | _ => none

/-- Whether every `set` of frame width, frame height, encoding or frame rate in a list of
calls is directly followed by a `get` of the same property. -/
def read_back_immediately : List Call → Bool
  | [] => true
  | Call.set p _ _ :: rest =>
    (p = Property.CAP_PROP_AUTOFOCUS ||
      match rest with
      | Call.get q _ :: _ => p = q
      | _ => false) && read_back_immediately rest
  | _ :: rest => read_back_immediately rest

/-- The device calls of `open_camera` in the order of the source, for an attempt in which
no call throws and every check passes: `isOpened` (line 31), `open` if the camera was not
open (line 35), the four sets (lines 50-53), the three checked gets (lines 55-75), the
auto focus set if one is asked for (lines 91-99), and the two frame rate gets (lines 104
and 106). -/
def attempt_calls (keep_alive : Bool) (parser : Parser) (opened : Bool) : List Call :=
  [Call.isOpened (some keep_alive)]
  ++ (if opened then [] else [Call.open_ (some keep_alive)])
  ++ [Call.set Property.CAP_PROP_FRAME_WIDTH (Double.ofInt parser.frame_width)
        (some keep_alive),
      Call.set Property.CAP_PROP_FRAME_HEIGHT (Double.ofInt parser.frame_height)
        (some keep_alive),
      Call.set Property.CAP_PROP_FOURCC (Double.ofInt (fourcc 'M' 'J' 'P' 'G'))
        (some keep_alive),
      Call.set Property.CAP_PROP_FPS (Double.ofInt parser.fps) (some keep_alive),
      Call.get Property.CAP_PROP_FRAME_WIDTH (some keep_alive),
      Call.get Property.CAP_PROP_FRAME_HEIGHT (some keep_alive),
      Call.get Property.CAP_PROP_FOURCC (some keep_alive)]
  ++ (if parser.auto_focus = "on" then
        [Call.set Property.CAP_PROP_AUTOFOCUS (Double.ofInt 1) (some keep_alive)]
      else if parser.auto_focus = "off" then
        [Call.set Property.CAP_PROP_AUTOFOCUS (Double.ofInt 0) (some keep_alive)]
      else [])
  ++ [Call.get Property.CAP_PROP_FPS (some keep_alive), Call.get Property.CAP_PROP_FPS none]

/-- The state in which a pass through the body of the startup loop (lines 183-191) leaves
`main` when `open_camera` fails in it. -/
def failed_startup_pass (d : Env) (keep_alive : Bool) (parser : Parser) (s : MainState) :
    MainState :=
  report_failed_attempt
    { s with success := false, log := (open_camera d keep_alive parser s.log).2 }

/-- The number of pings with `keep_alive` among a list of events that were answered
with `b`. -/
def pings (keep_alive : Bool) (b : Bool) (events : List Event) : Nat :=
  List.count (Event.request (Call.ping (some keep_alive)) (Reply.flag b)) events

/-- The log after lines 214-225 of a pass through the capture loop in which the retrieval
failed with the reply `r`: the request, the notification of line 221 if
`notify_loss_of_connection` is set, and `performance_counter.reset()`. -/
def capture_failure_log (keep_alive : Bool) (i : Int) (s : MainState) (r : Reply) : Log :=
  s.log ++ [Event.request (Call.retrieve (some keep_alive)) r]
    ++ (if s.notify_loss_of_connection then [Event.cerr (Msg.failed_to_grab i)] else [])
    ++ [Event.reset]

/-- The next `m` passes through the capture loop, with the step `inc`, all end: the pass
started with the index `i` in the state `s` ends, for some fuel, and so do the passes that
follow it from the state it leaves.  A pass whose retrieval succeeds always ends; a pass
whose retrieval fails ends when the reconnect loop of line 227 that it enters ends. -/
def passes_end (d : Env) (keep_alive : Bool) (parser : Parser) (inc : Int) :
    Nat → Int → MainState → Prop
  | 0, _, _ => True
  | m + 1, i, s =>
    ∃ fuel s1, main_capture_body d keep_alive parser fuel i s = Run.done s1 ∧
      passes_end d keep_alive parser inc m (int32 (i + inc)) s1

/-! ## Sample environments -/

/-- The defaults of the command line keys (lines 131-138). -/
def default_keys : Parser :=
  { frame_width := 320, frame_height := 240, fps := 30, auto_focus := "default",
    show_images := true, max_iterations := 1000 }

/-- A camera that is open, answers `true` to every request and reads back the given
values (and 0 for auto focus); the window of the performance counter never completes and
no key is pressed. -/
def sample_camera (width height encoding fps : Double) : Env where
  flag := fun _ _ => some true
  value := fun _ c =>
    match c with
    | Call.get Property.CAP_PROP_FRAME_WIDTH _ => some width
    | Call.get Property.CAP_PROP_FRAME_HEIGHT _ => some height
    | Call.get Property.CAP_PROP_FOURCC _ => some encoding
    | Call.get Property.CAP_PROP_FPS _ => some fps
    | _ => some (Double.ofInt 0)
  image_size := fun _ => 230400
  loop := fun _ _ => false
  waitKey := fun _ => -1

/-- A camera that reads back what `default_keys` asks for. -/
def good_camera : Env :=
  sample_camera (Double.ofInt 320) (Double.ofInt 240) (Double.ofInt 1196444237)
    (Double.ofInt 30)

/-- A camera that is closed, refuses the first `fails` requests to open, never delivers a
frame (the request throws), and otherwise behaves as `good_camera` with a frame rate of 25. -/
def faulty_camera (fails : Nat) : Env where
  flag := fun log c =>
    match c with
    | Call.isOpened _ => some false
    | Call.open_ _ => some (decide (fails ≤ List.count (Call.open_ (some true)) (calls log)))
    | Call.retrieve _ => none
    | _ => some true
  value := (sample_camera (Double.ofInt 320) (Double.ofInt 240) (Double.ofInt 1196444237)
    (Double.ofInt 25)).value
  image_size := fun _ => 230400
  loop := fun _ _ => false
  waitKey := fun _ => -1

/-- A camera that is lost: every device call throws `RemoteException`.  The window of the
performance counter never completes and no key is pressed. -/
def lost_camera : Env where
  flag := fun _ _ => none
  value := fun _ _ => none
  image_size := fun _ => 0
  loop := fun _ _ => false
  waitKey := fun _ => -1

/-- The default keys with `max-iterations = 2`. -/
def two_passes : Parser :=
  { default_keys with max_iterations := 2 }

/-! ## The descriptions hold -/

/-- On a finite value, `==` is equality. -/
theorem Double.eq_finite_iff (v : Double) (q : ℚ) :
    v.eq (Double.finite q) = true ↔ v = Double.finite q := by
  cases v <;> simp [Double.eq]

/-- On a converted `int`, `==` is equality. -/
theorem Double.eq_ofInt_iff (v : Double) (n : Int) :
    v.eq (Double.ofInt n) = true ↔ v = Double.ofInt n :=
  Double.eq_finite_iff v n

/-- Lines 104-115 add events as `FpsTrace` describes. -/
theorem open_camera_fps_trace (d : Env) (keep_alive : Bool) (fps : Double) (log : Log) :
    ∃ b new, open_camera_fps d keep_alive fps log = (b, log ++ new) ∧
      FpsTrace keep_alive fps b new := by
  unfold open_camera_fps try_value
  cases h1 : d.value log (Call.get Property.CAP_PROP_FPS (some keep_alive)) with
  | none => exact ⟨_, _, rfl, FpsTrace.raised⟩
  | some v =>
    by_cases hv : v.eq fps = true
    · simp only [hv, if_true]
      cases h2 : d.value (log ++ [Event.request (Call.get Property.CAP_PROP_FPS
          (some keep_alive)) (Reply.value v)]) (Call.get Property.CAP_PROP_FPS none) with
      | none =>
        refine ⟨_, _, ?_, FpsTrace.raised_again v hv⟩
        simp
      | some v2 =>
        by_cases hc : fps_close v2 fps = true
        · refine ⟨_, _, ?_, FpsTrace.accepted v v2 hv hc⟩
          simp [hc]
        · refine ⟨_, _, ?_, FpsTrace.silent v v2 hv (by simpa using hc)⟩
          simp [hc]
    · refine ⟨_, _, ?_, FpsTrace.differs v (by simpa using hv)⟩
      simp [hv]

/-- Lines 89-115 add events as `AutoFocusTrace` describes. -/
theorem open_camera_auto_focus_trace (d : Env) (keep_alive : Bool) (parser : Parser)
    (fps : Double) (log : Log) :
    ∃ b new, open_camera_auto_focus d keep_alive parser fps log = (b, log ++ new) ∧
      AutoFocusTrace keep_alive parser.auto_focus fps b new := by
  unfold open_camera_auto_focus try_flag
  by_cases hon : parser.auto_focus = "on"
  · rw [if_pos hon]
    cases h1 : d.flag (log ++ [Event.cout Msg.auto_focus_on])
        (Call.set Property.CAP_PROP_AUTOFOCUS (Double.ofInt 1) (some keep_alive)) with
    | none =>
      refine ⟨_, _, ?_, AutoFocusTrace.focus_on_raised hon⟩
      simp
    | some b0 =>
      obtain ⟨b, new, he, ht⟩ := open_camera_fps_trace d keep_alive fps
        (log ++ [Event.cout Msg.auto_focus_on] ++ [Event.request (Call.set
          Property.CAP_PROP_AUTOFOCUS (Double.ofInt 1) (some keep_alive)) (Reply.flag b0)])
      refine ⟨_, _, ?_, AutoFocusTrace.focus_on hon b0 b new ht⟩
      simp only [he]
      simp
  · rw [if_neg hon]
    by_cases hoff : parser.auto_focus = "off"
    · rw [if_pos hoff]
      cases h1 : d.flag (log ++ [Event.cout Msg.auto_focus_off])
          (Call.set Property.CAP_PROP_AUTOFOCUS (Double.ofInt 0) (some keep_alive)) with
      | none =>
        refine ⟨_, _, ?_, AutoFocusTrace.focus_off_raised hon hoff⟩
        simp
      | some b0 =>
        obtain ⟨b, new, he, ht⟩ := open_camera_fps_trace d keep_alive fps
          (log ++ [Event.cout Msg.auto_focus_off] ++ [Event.request (Call.set
            Property.CAP_PROP_AUTOFOCUS (Double.ofInt 0) (some keep_alive)) (Reply.flag b0)])
        refine ⟨_, _, ?_, AutoFocusTrace.focus_off hon hoff b0 b new ht⟩
        simp only [he]
        simp
    · rw [if_neg hoff]
      obtain ⟨b, new, he, ht⟩ := open_camera_fps_trace d keep_alive fps log
      exact ⟨_, _, he, AutoFocusTrace.focus_unset hon hoff b new ht⟩

/-- Lines 45-115 add events as `PropertiesTrace` describes. -/
theorem open_camera_properties_trace (d : Env) (keep_alive : Bool) (parser : Parser)
    (log : Log) :
    ∃ b new, open_camera_properties d keep_alive parser log = (b, log ++ new) ∧
      PropertiesTrace keep_alive parser b new := by
  unfold open_camera_properties try_flag try_value
  dsimp only
  split
  · exact ⟨_, _, rfl, PropertiesTrace.set_width_raised⟩
  rename_i b1 _
  split
  · refine ⟨_, _, ?_, PropertiesTrace.set_height_raised b1⟩
    simp
  rename_i b2 _
  split
  · refine ⟨_, _, ?_, PropertiesTrace.set_fourcc_raised b1 b2⟩
    simp
  rename_i b3 _
  split
  · refine ⟨_, _, ?_, PropertiesTrace.set_fps_raised b1 b2 b3⟩
    simp
  rename_i b4 _
  split
  · refine ⟨_, _, ?_, PropertiesTrace.get_width_raised b1 b2 b3 b4⟩
    simp [set_events]
  rename_i v1 _
  split
  swap
  · rename_i hv
    refine ⟨_, _, ?_, PropertiesTrace.width_differs b1 b2 b3 b4 v1 (by simpa using hv)⟩
    simp [set_events]
  rename_i hv1
  rw [Double.eq_ofInt_iff] at hv1
  subst hv1
  split
  · refine ⟨_, _, ?_, PropertiesTrace.get_height_raised b1 b2 b3 b4⟩
    simp [set_events]
  rename_i v2 _
  split
  swap
  · rename_i hv
    refine ⟨_, _, ?_, PropertiesTrace.height_differs b1 b2 b3 b4 v2 (by simpa using hv)⟩
    simp [set_events]
  rename_i hv2
  rw [Double.eq_ofInt_iff] at hv2
  subst hv2
  split
  · refine ⟨_, _, ?_, PropertiesTrace.get_fourcc_raised b1 b2 b3 b4⟩
    simp [set_events]
  rename_i v3 _
  split
  swap
  · rename_i hv
    refine ⟨_, _, ?_, PropertiesTrace.fourcc_differs b1 b2 b3 b4 v3 (by simpa using hv)⟩
    simp [set_events]
  rename_i hv3
  rw [Double.eq_ofInt_iff] at hv3
  subst hv3
  obtain ⟨b, new, he, ht⟩ := open_camera_auto_focus_trace d keep_alive parser
    (Double.ofInt parser.fps) _
  refine ⟨_, _, ?_, PropertiesTrace.checked b1 b2 b3 b4 b new ht⟩
  rw [he]
  simp [set_events]

/-- A call of `open_camera` adds events as `AttemptTrace` describes. -/
theorem open_camera_trace (d : Env) (keep_alive : Bool) (parser : Parser) (log : Log) :
    ∃ b new, open_camera d keep_alive parser log = (b, log ++ new) ∧
      AttemptTrace keep_alive parser b new := by
  unfold open_camera try_flag
  split
  · exact ⟨_, _, rfl, AttemptTrace.isOpened_raised⟩
  rename_i opened _
  cases opened with
  | true =>
    obtain ⟨b, new, he, ht⟩ := open_camera_properties_trace d keep_alive parser
      (log ++ [Event.request (Call.isOpened (some keep_alive)) (Reply.flag true)]
        ++ [Event.cout Msg.opened_already])
    refine ⟨_, _, ?_, AttemptTrace.already_open b new ht⟩
    simp only [if_true, he]
    simp
  | false =>
    simp only [Bool.false_eq_true, if_false]
    split
    · refine ⟨_, _, ?_, AttemptTrace.open_raised⟩
      simp
    rename_i ok _
    cases ok with
    | false =>
      refine ⟨_, _, ?_, AttemptTrace.open_failed⟩
      simp
    | true =>
      obtain ⟨b, new, he, ht⟩ := open_camera_properties_trace d keep_alive parser
        (log ++ [Event.request (Call.isOpened (some keep_alive)) (Reply.flag false)]
          ++ [Event.request (Call.open_ (some keep_alive)) (Reply.flag true)])
      refine ⟨_, _, ?_, AttemptTrace.opened b new ht⟩
      simp only [Bool.not_true, Bool.false_eq_true, if_false, he]
      simp

/-! ## What an attempt never does -/

/-- The calls of two lists of events, one after the other. -/
theorem calls_append (a b : List Event) : calls (a ++ b) = calls a ++ calls b := by
  simp [calls]

/-- The reported attempts of two lists of events, one after the other. -/
theorem reported_attempts_append (a b : List Event) :
    reported_attempts (a ++ b) = reported_attempts a ++ reported_attempts b := by
  simp [reported_attempts]

/-- Lines 104-115 only get the frame rate; they neither reset the counter nor report an
attempt. -/
theorem fps_trace_facts {keep_alive : Bool} {fps : Double} {b : Bool} {new : List Event}
    (h : FpsTrace keep_alive fps b new) :
    (∀ c ∈ calls new, ∃ k, c = Call.get Property.CAP_PROP_FPS k) ∧
    Event.reset ∉ new ∧ reported_attempts new = [] := by
  cases h <;> simp [calls, reported_attempts]

/-- Lines 89-115 only set and get properties. -/
theorem auto_focus_trace_facts {keep_alive : Bool} {auto_focus : String} {fps : Double}
    {b : Bool} {new : List Event} (h : AutoFocusTrace keep_alive auto_focus fps b new) :
    (∀ c ∈ calls new, (∃ p v k, c = Call.set p v k) ∨ (∃ p k, c = Call.get p k)) ∧
    Event.reset ∉ new ∧ reported_attempts new = [] := by
  cases h with
  | focus_on_raised => simp [calls, reported_attempts]
  | focus_off_raised => simp [calls, reported_attempts]
  | focus_on _ _ _ _ hf | focus_off _ _ _ _ _ hf | focus_unset _ _ _ _ hf =>
    cases hf <;> simp [calls, reported_attempts]

/-- Lines 45-115 only set and get properties. -/
theorem properties_trace_facts {keep_alive : Bool} {parser : Parser} {b : Bool}
    {new : List Event} (h : PropertiesTrace keep_alive parser b new) :
    (∀ c ∈ calls new, (∃ p v k, c = Call.set p v k) ∨ (∃ p k, c = Call.get p k)) ∧
    Event.reset ∉ new ∧ reported_attempts new = [] := by
  cases h with
  | checked _ _ _ _ _ rest ha =>
    obtain ⟨h1, h2, h3⟩ := auto_focus_trace_facts ha
    refine ⟨?_, ?_, ?_⟩
    · intro c hc
      simp only [calls, List.filterMap_append, List.mem_append] at hc
      rcases hc with hc | hc
      · simp [set_events] at hc
        casesm* _ ∨ _ <;> subst_vars <;> simp
      · exact h1 c hc
    · simp [set_events, h2]
    · simp [reported_attempts, set_events] at h3 ⊢
      exact h3
  | _ => simp [calls, reported_attempts, set_events]

/-- A call that is neither a set nor a get is not issued by lines 45-115. -/
theorem properties_trace_not_mem_calls {keep_alive : Bool} {parser : Parser} {b : Bool}
    {new : List Event} (h : PropertiesTrace keep_alive parser b new) (c : Call)
    (hset : ∀ p v k, c ≠ Call.set p v k) (hget : ∀ p k, c ≠ Call.get p k) :
    c ∉ calls new := by
  intro hc
  rcases (properties_trace_facts h).1 c hc with ⟨p, v, k, e⟩ | ⟨p, k, e⟩
  · exact hset p v k e
  · exact hget p k e

/-- An attempt issues one `isOpened` request and no retrieval, does not reset the counter
and reports no attempt. -/
theorem attempt_trace_facts {keep_alive : Bool} {parser : Parser} {b : Bool}
    {new : List Event} (h : AttemptTrace keep_alive parser b new) :
    List.count (Call.isOpened (some keep_alive)) (calls new) = 1 ∧
    (∀ k, Call.retrieve k ∉ calls new) ∧
    Event.reset ∉ new ∧ reported_attempts new = [] := by
  cases h with
  | isOpened_raised => simp [calls, reported_attempts]
  | open_raised => simp [calls, reported_attempts]
  | open_failed => simp [calls, reported_attempts]
  | already_open _ rest hp | opened _ rest hp =>
    obtain ⟨-, h2, h3⟩ := properties_trace_facts hp
    have hi : List.count (Call.isOpened (some keep_alive)) (calls rest) = 0 :=
      List.count_eq_zero.2 (properties_trace_not_mem_calls hp _ (by simp) (by simp))
    have hr : ∀ k, Call.retrieve k ∉ calls rest :=
      fun k => properties_trace_not_mem_calls hp _ (by simp) (by simp)
    refine ⟨?_, ?_, ?_, ?_⟩
    · simp only [calls, List.filterMap_append, List.count_append] at hi ⊢
      rw [hi]
      simp
    · intro k hk
      simp only [calls, List.filterMap_append, List.mem_append] at hk
      rcases hk with hk | hk
      · simp at hk
      · exact hr k hk
    · simp [h2]
    · simp [reported_attempts] at h3 ⊢
      exact h3

/-! ## The reconnect loops -/

/-- A call of `open_camera` extends the log, by one `isOpened` request and no retrieval. -/
theorem open_camera_log (d : Env) (keep_alive : Bool) (parser : Parser) (log : Log) :
    ∃ new, (open_camera d keep_alive parser log).2 = log ++ new ∧
      List.count (Call.isOpened (some keep_alive)) (calls new) = 1 ∧
      (∀ k, Call.retrieve k ∉ calls new) ∧
      Event.reset ∉ new ∧ reported_attempts new = [] := by
  obtain ⟨b, new, he, ht⟩ := open_camera_trace d keep_alive parser log
  exact ⟨new, by rw [he], attempt_trace_facts ht⟩

/-- The reconnect loop of line 227 extends the log, without retrieval or reset. -/
theorem main_reopen_loop_log (d : Env) (keep_alive : Bool) (parser : Parser) (fuel : Nat) :
    ∀ s : MainState, ∃ new,
      (main_reopen_loop d keep_alive parser fuel s).log = s.log ++ new ∧
      (∀ k, Call.retrieve k ∉ calls new) ∧ Event.reset ∉ new := by
  induction fuel with
  | zero =>
    intro s
    exact ⟨[], by simp [main_reopen_loop, Run.log], by simp [calls], by simp⟩
  | succ fuel ih =>
    intro s
    obtain ⟨new1, h1, -, hr1, hz1, -⟩ := open_camera_log d keep_alive parser s.log
    unfold main_reopen_loop
    dsimp only
    split
    · obtain ⟨new2, h2, hr2, hz2⟩ := ih (report_failed_attempt
        { s with log := (open_camera d keep_alive parser s.log).2 })
      refine ⟨new1 ++ [Event.cerr (Msg.failed_attempt s.open_camera_attempt),
        Event.sleep_for 2000] ++ new2, ?_, ?_, ?_⟩
      · rw [h2]
        simp [report_failed_attempt, h1]
      · intro k hk
        rw [calls_append, calls_append, List.mem_append, List.mem_append] at hk
        rcases hk with (hk | hk) | hk
        · exact hr1 k hk
        · simp [calls] at hk
        · exact hr2 k hk
      · simp [hz1, hz2]
    · exact ⟨new1, by simp [Run.log, h1], hr1, hz1⟩

/-- The reconnect loop of line 227 ends with a call of `open_camera` that returned true. -/
theorem main_reopen_loop_done (d : Env) (keep_alive : Bool) (parser : Parser) (fuel : Nat) :
    ∀ s s' : MainState, main_reopen_loop d keep_alive parser fuel s = Run.done s' →
      ∃ l, open_camera d keep_alive parser l = (true, s'.log) := by
  induction fuel with
  | zero =>
    intro s s' h
    simp [main_reopen_loop] at h
  | succ fuel ih =>
    intro s s' h
    unfold main_reopen_loop at h
    dsimp only at h
    split at h
    · exact ih _ _ h
    · rename_i hr
      injection h with h
      subst h
      refine ⟨s.log, ?_⟩
      have : (open_camera d keep_alive parser s.log).1 = true := by simpa using hr
      exact Prod.ext this rfl

/-- The startup loop extends the log, without retrieval or reset. -/
theorem main_startup_loop_log (d : Env) (keep_alive : Bool) (parser : Parser) (fuel : Nat) :
    ∀ s : MainState, ∃ new,
      (main_startup_loop d keep_alive parser fuel s).log = s.log ++ new ∧
      (∀ k, Call.retrieve k ∉ calls new) ∧ Event.reset ∉ new := by
  induction fuel with
  | zero =>
    intro s
    exact ⟨[], by simp [main_startup_loop, Run.log], by simp [calls], by simp⟩
  | succ fuel ih =>
    intro s
    obtain ⟨new1, h1, -, hr1, hz1, -⟩ := open_camera_log d keep_alive parser s.log
    unfold main_startup_loop
    dsimp only
    split
    · split
      · obtain ⟨new2, h2, hr2, hz2⟩ := ih (report_failed_attempt
          { s with success := (open_camera d keep_alive parser s.log).1,
                   log := (open_camera d keep_alive parser s.log).2 })
        refine ⟨new1 ++ [Event.cerr (Msg.failed_attempt s.open_camera_attempt),
          Event.sleep_for 2000] ++ new2, ?_, ?_, ?_⟩
        · rw [h2]
          simp [report_failed_attempt, h1]
        · intro k hk
          rw [calls_append, calls_append, List.mem_append, List.mem_append] at hk
          rcases hk with (hk | hk) | hk
          · exact hr1 k hk
          · simp [calls] at hk
          · exact hr2 k hk
        · simp [hz1, hz2]
      · obtain ⟨new2, h2, hr2, hz2⟩ := ih
          { s with success := (open_camera d keep_alive parser s.log).1,
                   log := (open_camera d keep_alive parser s.log).2 }
        refine ⟨new1 ++ new2, ?_, ?_, ?_⟩
        · rw [h2]
          simp [h1]
        · intro k hk
          rw [calls_append, List.mem_append] at hk
          rcases hk with hk | hk
          · exact hr1 k hk
          · exact hr2 k hk
        · simp [hz1, hz2]
    · exact ⟨[], by simp [Run.log], by simp [calls], by simp⟩

/-- The startup loop ends with `success = true`. -/
theorem main_startup_loop_done (d : Env) (keep_alive : Bool) (parser : Parser) (fuel : Nat) :
    ∀ s s' : MainState, main_startup_loop d keep_alive parser fuel s = Run.done s' →
      s'.success = true := by
  induction fuel with
  | zero =>
    intro s s' h
    simp [main_startup_loop] at h
  | succ fuel ih =>
    intro s s' h
    unfold main_startup_loop at h
    dsimp only at h
    split at h
    · split at h
      · exact ih _ _ h
      · exact ih _ _ h
    · rename_i hs
      injection h with h
      subst h
      simpa using hs

/-! ## The read-backs of a successful attempt -/

/-- C1: whenever `open_camera` returns true, the attempt has read back frame width, frame
height and pixel encoding, and every reply the device gave to such a read-back during the
attempt is exactly the requested width, height and MJPG tag. -/
theorem open_camera_true_readbacks (d : Env) (keep_alive : Bool) (parser : Parser) (log : Log)
    (h : (open_camera d keep_alive parser log).1 = true) :
    ∃ new, (open_camera d keep_alive parser log).2 = log ++ new ∧
      Event.request (Call.get Property.CAP_PROP_FRAME_WIDTH (some keep_alive))
        (Reply.value (Double.ofInt parser.frame_width)) ∈ new ∧
      Event.request (Call.get Property.CAP_PROP_FRAME_HEIGHT (some keep_alive))
        (Reply.value (Double.ofInt parser.frame_height)) ∈ new ∧
      Event.request (Call.get Property.CAP_PROP_FOURCC (some keep_alive))
        (Reply.value (Double.ofInt (fourcc 'M' 'J' 'P' 'G'))) ∈ new ∧
      (∀ k r, Event.request (Call.get Property.CAP_PROP_FRAME_WIDTH k) r ∈ new →
        r = Reply.value (Double.ofInt parser.frame_width)) ∧
      (∀ k r, Event.request (Call.get Property.CAP_PROP_FRAME_HEIGHT k) r ∈ new →
        r = Reply.value (Double.ofInt parser.frame_height)) ∧
      (∀ k r, Event.request (Call.get Property.CAP_PROP_FOURCC k) r ∈ new →
        r = Reply.value (Double.ofInt (fourcc 'M' 'J' 'P' 'G'))) := by
  obtain ⟨b, new, he, ht⟩ := open_camera_trace d keep_alive parser log
  rw [he] at h ⊢
  dsimp only at h
  subst h
  refine ⟨new, rfl, ?_⟩
  cases ht with
  | already_open _ _ hp | opened _ _ hp =>
    cases hp with
    | checked b1 b2 b3 b4 _ rest ha =>
      cases ha with
      | focus_on _ _ _ _ hf | focus_off _ _ _ _ _ hf | focus_unset _ _ _ _ hf =>
        cases hf <;> simp [set_events]

/-- C1 at the good camera with the default keys, where the attempt succeeds. -/
theorem open_camera_true_readbacks_witness :
    (open_camera good_camera true default_keys []).1 = true ∧
    ∃ new, (open_camera good_camera true default_keys []).2 = [] ++ new ∧
      Event.request (Call.get Property.CAP_PROP_FRAME_WIDTH (some true))
        (Reply.value (Double.ofInt default_keys.frame_width)) ∈ new ∧
      Event.request (Call.get Property.CAP_PROP_FRAME_HEIGHT (some true))
        (Reply.value (Double.ofInt default_keys.frame_height)) ∈ new ∧
      Event.request (Call.get Property.CAP_PROP_FOURCC (some true))
        (Reply.value (Double.ofInt (fourcc 'M' 'J' 'P' 'G'))) ∈ new ∧
      (∀ k r, Event.request (Call.get Property.CAP_PROP_FRAME_WIDTH k) r ∈ new →
        r = Reply.value (Double.ofInt default_keys.frame_width)) ∧
      (∀ k r, Event.request (Call.get Property.CAP_PROP_FRAME_HEIGHT k) r ∈ new →
        r = Reply.value (Double.ofInt default_keys.frame_height)) ∧
      (∀ k r, Event.request (Call.get Property.CAP_PROP_FOURCC k) r ∈ new →
        r = Reply.value (Double.ofInt (fourcc 'M' 'J' 'P' 'G'))) :=
  have h : (open_camera good_camera true default_keys []).1 = true := by
    simp [open_camera, open_camera_properties, open_camera_auto_focus, open_camera_fps,
      try_flag, try_value, good_camera, sample_camera, default_keys, Double.eq,
      Double.ofInt, fps_close, fourcc, int32]
  ⟨h, open_camera_true_readbacks good_camera true default_keys [] h⟩

/-! ## The startup loop -/

/-- An `int` expression whose mathematical value is in range has that value. -/
theorem int32_of_range (x : Int) (h1 : -2147483648 ≤ x) (h2 : x ≤ 2147483647) :
    int32 x = x := by
  unfold int32
  omega

/-- The startup loop started in any state with `success = false`: `k` failed passes, then a
success. -/
theorem main_startup_loop_general (d : Env) (keep_alive : Bool) (parser : Parser) :
    ∀ (k : Nat) (s : MainState) (fuel : Nat), s.success = false → k + 2 ≤ fuel →
      -2147483648 ≤ s.open_camera_attempt → s.open_camera_attempt + k ≤ 2147483647 →
      (∀ j < k, (open_camera d keep_alive parser
        ((failed_startup_pass d keep_alive parser)^[j] s).log).1 = false) →
      (open_camera d keep_alive parser
        ((failed_startup_pass d keep_alive parser)^[k] s).log).1 = true →
      ∃ s' new, main_startup_loop d keep_alive parser fuel s = Run.done s' ∧
        s'.success = true ∧ s'.open_camera_attempt = s.open_camera_attempt + k ∧
        s'.log = s.log ++ new ∧
        List.count (Call.isOpened (some keep_alive)) (calls new) = k + 1 ∧
        reported_attempts new
          = (List.range k).map (fun (j : Nat) => s.open_camera_attempt + (j : Int)) := by
  intro k
  induction k with
  | zero =>
    intro s fuel hs hfuel _ _ _ hok
    obtain ⟨fuel, rfl⟩ : ∃ f, fuel = f + 2 := ⟨fuel - 2, by omega⟩
    obtain ⟨new, h1, hc, -, -, hr⟩ := open_camera_log d keep_alive parser s.log
    simp only [Function.iterate_zero, id_eq] at hok
    refine ⟨{ s with success := true, log := (open_camera d keep_alive parser s.log).2 },
      new, ?_, rfl, by simp, h1, by simpa using hc, by simpa using hr⟩
    unfold main_startup_loop
    simp only [hs, hok, Bool.not_false, Bool.not_true, if_true, Bool.false_eq_true, if_false]
    unfold main_startup_loop
    simp
  | succ k ih =>
    intro s fuel hs hfuel hlo hhi hfail hok
    obtain ⟨fuel, rfl⟩ : ∃ f, fuel = f + 1 := ⟨fuel - 1, by omega⟩
    obtain ⟨new, h1, hc, -, -, hr⟩ := open_camera_log d keep_alive parser s.log
    have hf0 : (open_camera d keep_alive parser s.log).1 = false := by
      simpa using hfail 0 (by omega)
    have hstep : main_startup_loop d keep_alive parser (fuel + 1) s
        = main_startup_loop d keep_alive parser fuel
            (failed_startup_pass d keep_alive parser s) := by
      conv_lhs => unfold main_startup_loop
      simp [hs, hf0, failed_startup_pass]
    have hatt : (failed_startup_pass d keep_alive parser s).open_camera_attempt
        = s.open_camera_attempt + 1 := by
      simp only [failed_startup_pass, report_failed_attempt]
      exact int32_of_range _ (by omega) (by push_cast at hhi; omega)
    have hlog : (failed_startup_pass d keep_alive parser s).log
        = s.log ++ (new ++ [Event.cerr (Msg.failed_attempt s.open_camera_attempt),
            Event.sleep_for 2000]) := by
      simp [failed_startup_pass, report_failed_attempt, h1]
    obtain ⟨s', new', hrun, hsucc, hatt', hlog', hc', hr'⟩ :=
      ih (failed_startup_pass d keep_alive parser s) fuel
        (by simp [failed_startup_pass, report_failed_attempt]) (by omega)
        (by rw [hatt]; omega) (by rw [hatt]; push_cast at hhi; omega)
        (fun j hj => by
          have := hfail (j + 1) (by omega)
          rwa [Function.iterate_succ_apply] at this)
        (by rwa [Function.iterate_succ_apply] at hok)
    refine ⟨s', new ++ [Event.cerr (Msg.failed_attempt s.open_camera_attempt),
      Event.sleep_for 2000] ++ new', ?_, hsucc, ?_, ?_, ?_, ?_⟩
    · rw [hstep, hrun]
    · rw [hatt', hatt]
      push_cast
      ring
    · rw [hlog', hlog]
      simp
    · rw [calls_append, calls_append, List.count_append, List.count_append, hc, hc']
      simp [calls]
      omega
    · rw [reported_attempts_append, reported_attempts_append, hr, hr', hatt,
        List.range_succ_eq_map]
      simp [reported_attempts, Function.comp_def]
      intro j _
      ring

/-- C2: if `open_camera` fails in the first `k` passes of the startup loop of `main` and
succeeds in pass `k + 1` (with `k + 1` in the range of the `int` counter), the loop
terminates, with `success = true`, after exactly `k + 1` calls of `open_camera` (one
`isOpened` request each), having reported the attempt numbers `1 .. k` in this order, and
leaves `open_camera_attempt = k + 1`.  The fuel counts the evaluations of the loop
condition: `k + 1` passes and the final test. -/
theorem main_startup_loop_attempts (d : Env) (keep_alive : Bool) (parser : Parser)
    (log : Log) (k : Nat) (hk : (k : Int) + 1 ≤ 2147483647)
    (hfail : ∀ j < k, (open_camera d keep_alive parser
      ((failed_startup_pass d keep_alive parser)^[j] (startup_state log)).log).1 = false)
    (hok : (open_camera d keep_alive parser
      ((failed_startup_pass d keep_alive parser)^[k] (startup_state log)).log).1 = true) :
    ∀ fuel, k + 2 ≤ fuel →
      ∃ s new, main_startup_loop d keep_alive parser fuel (startup_state log) = Run.done s ∧
        s.success = true ∧ s.open_camera_attempt = (k : Int) + 1 ∧
        s.log = log ++ new ∧
        List.count (Call.isOpened (some keep_alive)) (calls new) = k + 1 ∧
        reported_attempts new = (List.range k).map (fun (j : Nat) => (j : Int) + 1) := by
  intro fuel hfuel
  obtain ⟨s, new, h1, h2, h3, h4, h5, h6⟩ :=
    main_startup_loop_general d keep_alive parser k (startup_state log) fuel rfl hfuel
      (by simp [startup_state]) (by simp only [startup_state]; omega) hfail hok
  refine ⟨s, new, h1, h2, ?_, h4, h5, ?_⟩
  · rw [h3]
    simp only [startup_state]
    ring
  · rw [h6]
    simp only [startup_state]
    apply List.map_congr_left
    intro j _
    ring

/-- C2 at a camera that refuses the first request to open: one failed pass, then success. -/
theorem main_startup_loop_attempts_witness :
    ∃ s new, main_startup_loop (faulty_camera 1) true default_keys 3 (startup_state [])
        = Run.done s ∧
      s.success = true ∧ s.open_camera_attempt = ((1 : Nat) : Int) + 1 ∧
      s.log = [] ++ new ∧
      List.count (Call.isOpened (some true)) (calls new) = 1 + 1 ∧
      reported_attempts new = (List.range 1).map (fun (j : Nat) => (j : Int) + 1) :=
  main_startup_loop_attempts (faulty_camera 1) true default_keys [] 1 (by decide)
    (by decide) (by decide) 3 (by decide)

/-! ## A failed retrieval in the capture loop -/

/-- A pass whose retrieval fails is the reconnect loop started after lines 214-225. -/
theorem main_capture_body_failed (d : Env) (keep_alive : Bool) (parser : Parser)
    (fuel : Nat) (i : Int) (s : MainState)
    (hfail : d.flag s.log (Call.retrieve (some keep_alive)) ≠ some true) :
    main_capture_body d keep_alive parser fuel i s
      = main_reopen_loop d keep_alive parser fuel
          { s with
            success := false
            log := capture_failure_log keep_alive i s
              (Reply.ofFlag (d.flag s.log (Call.retrieve (some keep_alive)))) } := by
  unfold main_capture_body capture_failure_log
  cases h : d.flag s.log (Call.retrieve (some keep_alive)) with
  | none => cases hn : s.notify_loss_of_connection <;> simp [hn]
  | some b =>
    cases b with
    | true => exact absurd h hfail
    | false => cases hn : s.notify_loss_of_connection <;> simp [hn]

/-- A pass begins with its retrieval. -/
theorem main_capture_body_head (d : Env) (keep_alive : Bool) (parser : Parser) (fuel : Nat)
    (i : Int) (s : MainState) :
    ∃ r rest, (main_capture_body d keep_alive parser fuel i s).log
      = s.log ++ Event.request (Call.retrieve (some keep_alive)) r :: rest := by
  by_cases h : d.flag s.log (Call.retrieve (some keep_alive)) = some true
  · unfold main_capture_body
    simp only [h, Option.getD_some, Bool.not_true, Bool.false_eq_true, if_false]
    by_cases hw : d.loop (s.log ++ [Event.request (Call.retrieve (some keep_alive))
        (Reply.ofFlag (some true))]) (d.image_size (s.log ++
          [Event.request (Call.retrieve (some keep_alive)) (Reply.ofFlag (some true))])) = true
      <;> by_cases hs : parser.show_images = true
      <;> simp [hw, hs, Run.log]
  · rw [main_capture_body_failed d keep_alive parser fuel i s h]
    generalize hx : ({ s with
      success := false
      log := capture_failure_log keep_alive i s
            (Reply.ofFlag (d.flag s.log (Call.retrieve (some keep_alive)))) } : MainState)
      = x
    obtain ⟨new, h1, -, -⟩ := main_reopen_loop_log d keep_alive parser fuel x
    rw [h1, ← hx]
    simp only [capture_failure_log, List.append_assoc, List.singleton_append]
    exact ⟨_, _, rfl⟩

/-- What the capture loop adds to the log is nothing, or begins with a retrieval. -/
theorem main_capture_loop_head (d : Env) (keep_alive : Bool) (parser : Parser)
    (max_iterations inc : Int) (fuel : Nat) :
    ∀ (i : Int) (s : MainState), ∃ new,
      (main_capture_loop d keep_alive parser max_iterations inc fuel i s).log = s.log ++ new ∧
      (new = [] ∨ ∃ r rest, new = Event.request (Call.retrieve (some keep_alive)) r :: rest) := by
  induction fuel with
  | zero =>
    intro i s
    exact ⟨[], by simp [main_capture_loop, Run.log], Or.inl rfl⟩
  | succ fuel ih =>
    intro i s
    unfold main_capture_loop
    by_cases hc : s.key ≠ 27 ∧ i < max_iterations
    · rw [if_pos hc]
      obtain ⟨r, rest, hb⟩ := main_capture_body_head d keep_alive parser fuel i s
      cases hrun : main_capture_body d keep_alive parser fuel i s with
      | done s1 =>
        rw [hrun, Run.log] at hb
        dsimp only
        obtain ⟨new2, h2, -⟩ := ih (int32 (i + inc)) s1
        exact ⟨Event.request (Call.retrieve (some keep_alive)) r :: (rest ++ new2),
          by rw [h2, hb]; simp, Or.inr ⟨_, _, rfl⟩⟩
      | terminated l =>
        rw [hrun, Run.log] at hb
        exact ⟨_, by simpa [Run.log] using hb, Or.inr ⟨_, _, rfl⟩⟩
      | running l =>
        rw [hrun, Run.log] at hb
        exact ⟨_, by simpa [Run.log] using hb, Or.inr ⟨_, _, rfl⟩⟩
    · rw [if_neg hc]
      exact ⟨[], by simp [Run.log], Or.inl rfl⟩

/-- A pass whose retrieval fails: the events that follow the failed request hold one
reset, before any device call, and no retrieval; if the pass ends, it ends with a call of
`open_camera` that returned true, the only call if the first one succeeds. -/
theorem main_capture_body_gap (d : Env) (keep_alive : Bool) (parser : Parser)
    (fuel : Nat) (i : Int) (s : MainState)
    (hfail : d.flag s.log (Call.retrieve (some keep_alive)) ≠ some true) :
    ∃ gap,
      (main_capture_body d keep_alive parser fuel i s).log
        = s.log ++ Event.request (Call.retrieve (some keep_alive))
            (Reply.ofFlag (d.flag s.log (Call.retrieve (some keep_alive)))) :: gap ∧
      List.count Event.reset gap = 1 ∧
      (∃ before after, gap = before ++ Event.reset :: after ∧ calls before = []) ∧
      (∀ k, Call.retrieve k ∉ calls gap) ∧
      (∀ s1, main_capture_body d keep_alive parser fuel i s = Run.done s1 →
        (∃ l, open_camera d keep_alive parser l = (true, s1.log)) ∧
        ((open_camera d keep_alive parser (capture_failure_log keep_alive i s
            (Reply.ofFlag (d.flag s.log (Call.retrieve (some keep_alive)))))).1 = true →
          List.count (Call.isOpened (some keep_alive)) (calls gap) = 1)) := by
  have hrun := main_capture_body_failed d keep_alive parser fuel i s hfail
  have hcalls : calls (if s.notify_loss_of_connection = true
      then [Event.cerr (Msg.failed_to_grab i)] else []) = [] := by
    cases s.notify_loss_of_connection <;> simp [calls]
  have hreset : List.count Event.reset (if s.notify_loss_of_connection = true
      then [Event.cerr (Msg.failed_to_grab i)] else []) = 0 := by
    cases s.notify_loss_of_connection <;> simp
  rw [hrun]
  obtain ⟨new, h1, hr, hz⟩ := main_reopen_loop_log d keep_alive parser fuel
    { s with
      success := false
      log := capture_failure_log keep_alive i s
            (Reply.ofFlag (d.flag s.log (Call.retrieve (some keep_alive)))) }
  refine ⟨(if s.notify_loss_of_connection = true
    then [Event.cerr (Msg.failed_to_grab i)] else []) ++ [Event.reset] ++ new, ?_, ?_,
    ⟨_, new, by simp, hcalls⟩, ?_, ?_⟩
  · rw [h1]
    simp [capture_failure_log]
  · rw [List.count_append, List.count_append, hreset, List.count_eq_zero.2 hz]
    simp
  · intro k hk
    rw [calls_append, calls_append, hcalls] at hk
    simp only [List.nil_append, List.mem_append] at hk
    rcases hk with hk | hk
    · simp [calls] at hk
    · exact hr k hk
  · intro s1 hdone
    refine ⟨main_reopen_loop_done d keep_alive parser fuel _ s1 hdone, ?_⟩
    intro hok
    rw [hdone, Run.log] at h1
    cases fuel with
    | zero => simp [main_reopen_loop] at hdone
    | succ fuel =>
      unfold main_reopen_loop at hdone
      simp only [hok, Bool.not_true, Bool.false_eq_true, if_false] at hdone
      injection hdone with hdone
      subst hdone
      obtain ⟨new', h1', hc, -⟩ := open_camera_log d keep_alive parser
        (capture_failure_log keep_alive i s
          (Reply.ofFlag (d.flag s.log (Call.retrieve (some keep_alive)))))
      have hnew : new' = new := by
        have h2 : capture_failure_log keep_alive i s
            (Reply.ofFlag (d.flag s.log (Call.retrieve (some keep_alive)))) ++ new'
            = capture_failure_log keep_alive i s
            (Reply.ofFlag (d.flag s.log (Call.retrieve (some keep_alive)))) ++ new := by
          rw [← h1']
          exact h1
        exact List.append_cancel_left h2
      subst hnew
      rw [calls_append, calls_append, hcalls, List.count_append, List.count_append, hc]
      simp [calls]

/-- C3: the capture loop of `main`, at a pass whose frame retrieval fails (it returns
false or throws `RemoteException`).  Whatever the fuel, the log of the loop after the
failed request is a gap followed by the rest.  The gap holds exactly one
`performance_counter.reset()`, which comes before any device call, and no retrieval.  The
rest is empty or begins with the next retrieval, and then the gap has ended with a call of
`open_camera` that returned true; when the first call of `open_camera` after the reset
succeeds, the gap between the failed retrieval and the next one holds exactly one call of
`open_camera` (one `isOpened` request) and the one reset. -/
theorem main_capture_loop_reconnects (d : Env) (keep_alive : Bool) (parser : Parser)
    (max_iterations inc : Int) (i : Int) (s : MainState)
    (hpass : s.key ≠ 27 ∧ i < max_iterations)
    (hfail : d.flag s.log (Call.retrieve (some keep_alive)) ≠ some true) :
    (Reply.ofFlag (d.flag s.log (Call.retrieve (some keep_alive))) = Reply.flag false ∨
      Reply.ofFlag (d.flag s.log (Call.retrieve (some keep_alive))) = Reply.RemoteException) ∧
    ∀ fuel, ∃ gap rest,
      (main_capture_loop d keep_alive parser max_iterations inc (fuel + 1) i s).log
        = s.log ++ Event.request (Call.retrieve (some keep_alive))
            (Reply.ofFlag (d.flag s.log (Call.retrieve (some keep_alive)))) :: (gap ++ rest) ∧
      List.count Event.reset gap = 1 ∧
      (∃ before after, gap = before ++ Event.reset :: after ∧ calls before = []) ∧
      (∀ k, Call.retrieve k ∉ calls gap) ∧
      (rest = [] ∨
        ∃ r rest', rest = Event.request (Call.retrieve (some keep_alive)) r :: rest' ∧
          (∃ l, open_camera d keep_alive parser l
            = (true, s.log ++ Event.request (Call.retrieve (some keep_alive))
                (Reply.ofFlag (d.flag s.log (Call.retrieve (some keep_alive)))) :: gap)) ∧
          ((open_camera d keep_alive parser (capture_failure_log keep_alive i s
              (Reply.ofFlag (d.flag s.log (Call.retrieve (some keep_alive)))))).1 = true →
            List.count (Call.isOpened (some keep_alive)) (calls gap) = 1)) := by
  refine ⟨?_, ?_⟩
  · cases h : d.flag s.log (Call.retrieve (some keep_alive)) with
    | none => exact Or.inr rfl
    | some b =>
      cases b with
      | true => exact absurd h hfail
      | false => exact Or.inl rfl
  · intro fuel
    obtain ⟨gap, hlog, hreset, hbefore, hnone, hdone⟩ :=
      main_capture_body_gap d keep_alive parser fuel i s hfail
    unfold main_capture_loop
    rw [if_pos hpass]
    cases hrun : main_capture_body d keep_alive parser fuel i s with
    | done s1 =>
      rw [hrun, Run.log] at hlog
      obtain ⟨hopen, hone⟩ := hdone s1 hrun
      dsimp only
      obtain ⟨rest, h2, hrest⟩ := main_capture_loop_head d keep_alive parser max_iterations
        inc fuel (int32 (i + inc)) s1
      refine ⟨gap, rest, by rw [h2, hlog]; simp, hreset, hbefore, hnone, ?_⟩
      rcases hrest with hrest | ⟨r, rest', hrest⟩
      · exact Or.inl hrest
      · refine Or.inr ⟨r, rest', hrest, ?_, hone⟩
        rw [← hlog]
        exact hopen
    | terminated l =>
      rw [hrun, Run.log] at hlog
      exact ⟨gap, [], by simpa [Run.log] using hlog, hreset, hbefore, hnone, Or.inl rfl⟩
    | running l =>
      rw [hrun, Run.log] at hlog
      exact ⟨gap, [], by simpa [Run.log] using hlog, hreset, hbefore, hnone, Or.inl rfl⟩

/-- C3 at a camera whose retrievals throw and that reopens at the first attempt: the loop
reaches the next retrieval after one reset and one call of `open_camera`. -/
theorem main_capture_loop_reconnects_witness :
    ∃ gap r rest,
      (main_capture_loop (faulty_camera 0) true default_keys 2 1 2 0 (startup_state [])).log
        = (startup_state []).log
          ++ Event.request (Call.retrieve (some true)) Reply.RemoteException
            :: (gap ++ Event.request (Call.retrieve (some true)) r :: rest) ∧
      List.count Event.reset gap = 1 ∧
      List.count (Call.isOpened (some true)) (calls gap) = 1 ∧
      (∀ k, Call.retrieve k ∉ calls gap) := by
  obtain ⟨gap, rest, hlog, hreset, -, hnone, hrest⟩ :=
    (main_capture_loop_reconnects (faulty_camera 0) true default_keys 2 1 0 (startup_state [])
      (by decide) (by decide)).2 1
  rcases hrest with rfl | ⟨r, rest', rfl, -, hone⟩
  · exfalso
    have hcount : List.count (Call.retrieve (some true))
        (calls (main_capture_loop (faulty_camera 0) true default_keys 2 1 2 0
          (startup_state [])).log) = 2 := by
      decide
    rw [hlog] at hcount
    simp only [List.append_nil] at hcount
    have h0 : List.count (Call.retrieve (some true)) (calls gap) = 0 :=
      List.count_eq_zero.2 (hnone _)
    rw [show (startup_state []).log = [] from rfl, List.nil_append] at hcount
    have hsplit : ∀ e : Event, calls (e :: gap) = calls [e] ++ calls gap :=
      fun e => calls_append [e] gap
    rw [hsplit, List.count_append, h0] at hcount
    simp [calls] at hcount
  · exact ⟨gap, r, rest', hlog, hreset, hone (by decide), hnone⟩

/-! ## Frame rate and auto focus never fail an attempt -/

/-- Lines 104-115 return true unless a frame rate read-back throws. -/
theorem open_camera_fps_true (d : Env) (keep_alive : Bool) (fps : Double) (log : Log)
    (hfps : ∀ l k, d.value l (Call.get Property.CAP_PROP_FPS k) ≠ none) :
    (open_camera_fps d keep_alive fps log).1 = true := by
  unfold open_camera_fps try_value
  dsimp only
  split
  · rename_i h
    exact absurd h (hfps _ _)
  split
  · split
    · rename_i h
      exact absurd h (hfps _ _)
    · split <;> rfl
  · rfl

/-- Lines 89-115 return true unless the auto focus set or a frame rate read-back throws. -/
theorem open_camera_auto_focus_true (d : Env) (keep_alive : Bool) (parser : Parser)
    (fps : Double) (log : Log)
    (hfocus : ∀ l v k, d.flag l (Call.set Property.CAP_PROP_AUTOFOCUS v k) ≠ none)
    (hfps : ∀ l k, d.value l (Call.get Property.CAP_PROP_FPS k) ≠ none) :
    (open_camera_auto_focus d keep_alive parser fps log).1 = true := by
  unfold open_camera_auto_focus try_flag
  dsimp only
  split
  · split
    · rename_i h
      exact absurd h (hfocus _ _ _)
    · exact open_camera_fps_true d keep_alive fps _ hfps
  · split
    · split
      · rename_i h
        exact absurd h (hfocus _ _ _)
      · exact open_camera_fps_true d keep_alive fps _ hfps
    · exact open_camera_fps_true d keep_alive fps _ hfps

/-- Lines 45-115 give the same result for two devices that differ only in the auto focus
set and the frame rate read-backs. -/
theorem open_camera_properties_congr (d1 d2 : Env) (keep_alive : Bool) (parser : Parser)
    (log : Log)
    (hfocus1 : ∀ l v k, d1.flag l (Call.set Property.CAP_PROP_AUTOFOCUS v k) ≠ none)
    (hfps1 : ∀ l k, d1.value l (Call.get Property.CAP_PROP_FPS k) ≠ none)
    (hfocus2 : ∀ l v k, d2.flag l (Call.set Property.CAP_PROP_AUTOFOCUS v k) ≠ none)
    (hfps2 : ∀ l k, d2.value l (Call.get Property.CAP_PROP_FPS k) ≠ none)
    (hflag : ∀ l c, (∀ v k, c ≠ Call.set Property.CAP_PROP_AUTOFOCUS v k) →
      d1.flag l c = d2.flag l c)
    (hvalue : ∀ l c, (∀ k, c ≠ Call.get Property.CAP_PROP_FPS k) →
      d1.value l c = d2.value l c) :
    (open_camera_properties d1 keep_alive parser log).1
      = (open_camera_properties d2 keep_alive parser log).1 := by
  have hset : ∀ l p v k, p ≠ Property.CAP_PROP_AUTOFOCUS →
      d1.flag l (Call.set p v k) = d2.flag l (Call.set p v k) := by
    intro l p v k hp
    apply hflag
    intro v' k' he
    cases he
    exact hp rfl
  have hget : ∀ l p k, p ≠ Property.CAP_PROP_FPS →
      d1.value l (Call.get p k) = d2.value l (Call.get p k) := by
    intro l p k hp
    apply hvalue
    intro k' he
    cases he
    exact hp rfl
  unfold open_camera_properties try_flag try_value
  dsimp only
  rw [hset log _ _ _ (by decide)]
  split
  · rfl
  rw [hset _ _ _ _ (by decide)]
  split
  · rfl
  rw [hset _ _ _ _ (by decide)]
  split
  · rfl
  rw [hset _ _ _ _ (by decide)]
  split
  · rfl
  rw [hget _ _ _ (by decide)]
  split
  · rfl
  split
  swap
  · rfl
  rw [hget _ _ _ (by decide)]
  split
  · rfl
  split
  swap
  · rfl
  rw [hget _ _ _ (by decide)]
  split
  · rfl
  split
  swap
  · rfl
  rw [open_camera_auto_focus_true d1 keep_alive parser _ _ hfocus1 hfps1,
    open_camera_auto_focus_true d2 keep_alive parser _ _ hfocus2 hfps2]

/-- C4: the result of `open_camera` does not depend on the frame rate read-back nor on the
outcome of the auto focus set.  Two devices that do not throw on these two requests and
reply alike to every other request make `open_camera` return the same boolean; and, for
every device, an attempt in which the camera is open (or opens), width, height and
encoding read back as requested, and neither the auto focus set nor a frame rate read-back
throws, returns true. -/
theorem open_camera_ignores_fps_and_auto_focus (d1 d2 : Env) (keep_alive : Bool)
    (parser : Parser) (log : Log)
    (hfocus1 : ∀ l v k, d1.flag l (Call.set Property.CAP_PROP_AUTOFOCUS v k) ≠ none)
    (hfps1 : ∀ l k, d1.value l (Call.get Property.CAP_PROP_FPS k) ≠ none)
    (hfocus2 : ∀ l v k, d2.flag l (Call.set Property.CAP_PROP_AUTOFOCUS v k) ≠ none)
    (hfps2 : ∀ l k, d2.value l (Call.get Property.CAP_PROP_FPS k) ≠ none)
    (hflag : ∀ l c, (∀ v k, c ≠ Call.set Property.CAP_PROP_AUTOFOCUS v k) →
      d1.flag l c = d2.flag l c)
    (hvalue : ∀ l c, (∀ k, c ≠ Call.get Property.CAP_PROP_FPS k) →
      d1.value l c = d2.value l c) :
    (open_camera d1 keep_alive parser log).1 = (open_camera d2 keep_alive parser log).1 ∧
    ∀ (d : Env) (new : List Event), (open_camera d keep_alive parser log).2 = log ++ new →
      (Event.request (Call.isOpened (some keep_alive)) (Reply.flag true) ∈ new ∨
        Event.request (Call.open_ (some keep_alive)) (Reply.flag true) ∈ new) →
      Event.request (Call.get Property.CAP_PROP_FRAME_WIDTH (some keep_alive))
        (Reply.value (Double.ofInt parser.frame_width)) ∈ new →
      Event.request (Call.get Property.CAP_PROP_FRAME_HEIGHT (some keep_alive))
        (Reply.value (Double.ofInt parser.frame_height)) ∈ new →
      Event.request (Call.get Property.CAP_PROP_FOURCC (some keep_alive))
        (Reply.value (Double.ofInt (fourcc 'M' 'J' 'P' 'G'))) ∈ new →
      (∀ v k, Event.request (Call.set Property.CAP_PROP_AUTOFOCUS v k)
        Reply.RemoteException ∉ new) →
      (∀ k, Event.request (Call.get Property.CAP_PROP_FPS k) Reply.RemoteException ∉ new) →
      (open_camera d keep_alive parser log).1 = true := by
  constructor
  · have hc := fun l => open_camera_properties_congr d1 d2 keep_alive parser l
      hfocus1 hfps1 hfocus2 hfps2 hflag hvalue
    unfold open_camera try_flag
    dsimp only
    rw [hflag log _ (by simp)]
    split
    · rfl
    split
    · exact hc _
    rw [hflag _ _ (by simp)]
    split
    · rfl
    split
    · rfl
    · exact hc _
  · intro d new hnew hopen hw hh hf hnofocus hnofps
    obtain ⟨b, new', he, ht⟩ := open_camera_trace d keep_alive parser log
    rw [he] at hnew ⊢
    have hn : new' = new := List.append_cancel_left hnew
    subst hn
    dsimp only
    cases ht with
    | isOpened_raised => simp at hf
    | open_raised => simp at hf
    | open_failed => simp at hf
    | already_open _ _ hp | opened _ _ hp =>
      cases hp with
      | checked b1 b2 b3 b4 _ rest ha =>
        cases ha with
        | focus_on_raised =>
          exact absurd (by simp [set_events]) (hnofocus (Double.ofInt 1) (some keep_alive))
        | focus_off_raised =>
          exact absurd (by simp [set_events]) (hnofocus (Double.ofInt 0) (some keep_alive))
        | focus_on _ _ _ _ hr | focus_off _ _ _ _ _ hr | focus_unset _ _ _ _ hr =>
          have h1 := hnofps (some keep_alive)
          have h2 := hnofps none
          cases hr <;> first
            | rfl
            | simp [set_events] at h1 h2
      | width_differs _ _ _ _ v hv =>
        have hne : v ≠ Double.ofInt parser.frame_width := fun e =>
          by simp [(Double.eq_ofInt_iff v _).2 e] at hv
        simp [set_events] at hw
        exact absurd hw.symm hne
      | height_differs _ _ _ _ v hv =>
        have hne : v ≠ Double.ofInt parser.frame_height := fun e =>
          by simp [(Double.eq_ofInt_iff v _).2 e] at hv
        simp [set_events] at hh
        exact absurd hh.symm hne
      | fourcc_differs _ _ _ _ v hv =>
        have hne : v ≠ Double.ofInt (fourcc 'M' 'J' 'P' 'G') := fun e =>
          by simp [(Double.eq_ofInt_iff v _).2 e] at hv
        simp [set_events] at hf
        exact absurd hf.symm hne
      | _ => simp [set_events] at hf

/-- C4 at two cameras that differ in the frame rate they read back, 30 and 25. -/
theorem open_camera_ignores_fps_and_auto_focus_witness :
    (open_camera good_camera true default_keys []).1
      = (open_camera (sample_camera (Double.ofInt 320) (Double.ofInt 240)
          (Double.ofInt 1196444237) (Double.ofInt 25)) true default_keys []).1 ∧
    ∀ (d : Env) (new : List Event), (open_camera d true default_keys []).2 = [] ++ new →
      (Event.request (Call.isOpened (some true)) (Reply.flag true) ∈ new ∨
        Event.request (Call.open_ (some true)) (Reply.flag true) ∈ new) →
      Event.request (Call.get Property.CAP_PROP_FRAME_WIDTH (some true))
        (Reply.value (Double.ofInt default_keys.frame_width)) ∈ new →
      Event.request (Call.get Property.CAP_PROP_FRAME_HEIGHT (some true))
        (Reply.value (Double.ofInt default_keys.frame_height)) ∈ new →
      Event.request (Call.get Property.CAP_PROP_FOURCC (some true))
        (Reply.value (Double.ofInt (fourcc 'M' 'J' 'P' 'G'))) ∈ new →
      (∀ v k, Event.request (Call.set Property.CAP_PROP_AUTOFOCUS v k)
        Reply.RemoteException ∉ new) →
      (∀ k, Event.request (Call.get Property.CAP_PROP_FPS k) Reply.RemoteException ∉ new) →
      (open_camera d true default_keys []).1 = true :=
  open_camera_ignores_fps_and_auto_focus good_camera
    (sample_camera (Double.ofInt 320) (Double.ofInt 240) (Double.ofInt 1196444237)
      (Double.ofInt 25)) true default_keys []
    (fun _ _ _ => by simp [good_camera, sample_camera])
    (fun _ _ => by simp [good_camera, sample_camera])
    (fun _ _ _ => by simp [sample_camera])
    (fun _ _ => by simp [sample_camera])
    (fun _ _ _ => rfl)
    (fun l c hc => by
      cases c with
      | get p k =>
        cases p with
        | CAP_PROP_FPS => exact absurd rfl (hc k)
        | _ => rfl
      | _ => rfl)

/-! ## The second frame rate read-back -/

/-- C5, as stated, fails: the camera reads back a frame rate of 25 when 30 was requested,
the attempt succeeds, and the frame rate is read back once only. -/
theorem open_camera_fps_differs_read_once :
    Double.eq (Double.ofInt 25) (Double.ofInt default_keys.fps) = false ∧
    (open_camera (sample_camera (Double.ofInt 320) (Double.ofInt 240)
      (Double.ofInt 1196444237) (Double.ofInt 25)) true default_keys []).1 = true ∧
    fps_readbacks (open_camera (sample_camera (Double.ofInt 320) (Double.ofInt 240)
      (Double.ofInt 1196444237) (Double.ofInt 25)) true default_keys []).2
      = [Reply.value (Double.ofInt 25)] := by
  decide

/-- C5, amended: in every open attempt whose first frame rate read-back equals the
requested rate, `open_camera` reads the frame rate a second time (without the `keep_alive`
argument) and writes the success note exactly when the second reading is within 0.1 of
the requested rate; when the first read-back differs, it writes the warning of line 113
and does not read the frame rate again. -/
theorem open_camera_fps_second_read (d : Env) (keep_alive : Bool) (parser : Parser)
    (log : Log) :
    ∃ new, (open_camera d keep_alive parser log).2 = log ++ new ∧
      ∀ v, Event.request (Call.get Property.CAP_PROP_FPS (some keep_alive)) (Reply.value v)
          ∈ new →
        (v.eq (Double.ofInt parser.fps) = true →
          ∃ r, fps_readbacks new = [Reply.value v, r] ∧
            Event.request (Call.get Property.CAP_PROP_FPS none) r ∈ new ∧
            (Event.cout (Msg.fps_accepted (Double.ofInt parser.fps)) ∈ new ↔
              ∃ v2, r = Reply.value v2 ∧ fps_close v2 (Double.ofInt parser.fps) = true)) ∧
        (v.eq (Double.ofInt parser.fps) = false →
          fps_readbacks new = [Reply.value v] ∧
          Event.cerr Msg.fps_not_supported ∈ new ∧
          Event.cout (Msg.fps_accepted (Double.ofInt parser.fps)) ∉ new) := by
  obtain ⟨b, new, he, ht⟩ := open_camera_trace d keep_alive parser log
  refine ⟨new, by rw [he], ?_⟩
  intro v hv
  cases ht with
  | isOpened_raised => simp at hv
  | open_raised => simp at hv
  | open_failed => simp at hv
  | already_open _ _ hp | opened _ _ hp =>
    cases hp with
    | checked _ _ _ _ _ _ ha =>
      cases ha with
      | focus_on_raised => simp [set_events] at hv
      | focus_off_raised => simp [set_events] at hv
      | focus_on _ _ _ _ hf | focus_off _ _ _ _ _ hf | focus_unset _ _ _ _ hf =>
        cases hf <;> simp [set_events] at hv <;> subst hv <;>
          simp_all [fps_readbacks, set_events]
    | _ => simp [set_events] at hv

/-- C5, amended, at the good camera: the frame rate reads back as requested and is read
a second time. -/
theorem open_camera_fps_second_read_witness :
    ∃ r, fps_readbacks (open_camera good_camera true default_keys []).2
        = [Reply.value (Double.ofInt 30), r] ∧
      Event.request (Call.get Property.CAP_PROP_FPS none) r
        ∈ (open_camera good_camera true default_keys []).2 ∧
      (Event.cout (Msg.fps_accepted (Double.ofInt default_keys.fps))
          ∈ (open_camera good_camera true default_keys []).2 ↔
        ∃ v2, r = Reply.value v2 ∧ fps_close v2 (Double.ofInt default_keys.fps) = true) := by
  obtain ⟨new, hnew, h⟩ := open_camera_fps_second_read good_camera true default_keys []
  rw [hnew, List.nil_append]
  refine (h (Double.ofInt 30) ?_).1 ?_
  · have : Event.request (Call.get Property.CAP_PROP_FPS (some true))
        (Reply.value (Double.ofInt 30)) ∈ (open_camera good_camera true default_keys []).2 := by
      simp [open_camera, open_camera_properties, open_camera_auto_focus, open_camera_fps,
        try_flag, try_value, good_camera, sample_camera, default_keys, Double.eq,
        Double.ofInt, fps_close, fourcc, int32]
    rwa [hnew, List.nil_append] at this
  · simp [Double.eq, Double.ofInt, default_keys]

/-! ## The order of the device calls of an attempt -/

/-- C6, as stated, fails: with a camera that accepts everything, the four sets are issued
one after the other and the read-backs only follow after the last set. -/
theorem open_camera_sets_before_gets :
    calls (open_camera good_camera true default_keys []).2
      = [Call.isOpened (some true),
         Call.set Property.CAP_PROP_FRAME_WIDTH (Double.ofInt 320) (some true),
         Call.set Property.CAP_PROP_FRAME_HEIGHT (Double.ofInt 240) (some true),
         Call.set Property.CAP_PROP_FOURCC (Double.ofInt 1196444237) (some true),
         Call.set Property.CAP_PROP_FPS (Double.ofInt 30) (some true),
         Call.get Property.CAP_PROP_FRAME_WIDTH (some true),
         Call.get Property.CAP_PROP_FRAME_HEIGHT (some true),
         Call.get Property.CAP_PROP_FOURCC (some true),
         Call.get Property.CAP_PROP_FPS (some true),
         Call.get Property.CAP_PROP_FPS none] ∧
    read_back_immediately (calls (open_camera good_camera true default_keys []).2)
      = false := by
  simp [open_camera, open_camera_properties, open_camera_auto_focus, open_camera_fps,
    try_flag, try_value, good_camera, sample_camera, default_keys, Double.eq,
    Double.ofInt, fps_close, fourcc, int32, calls, read_back_immediately]

/-- C6, amended: in every open attempt the device calls are an initial segment of the
fixed sequence `attempt_calls`: `isOpened`, `open` when the camera was not open, then the
four sets of width, height, encoding and frame rate one directly after the other, and
only then the gets of width, height and encoding, the auto focus set if asked for, and the
frame rate gets.  An attempt that returns true has issued that sequence at least up to
the first frame rate get, so each of the four sets is followed, later, by a get of the
same property. -/
theorem open_camera_calls_in_order (d : Env) (keep_alive : Bool) (parser : Parser)
    (log : Log) :
    ∃ new, (open_camera d keep_alive parser log).2 = log ++ new ∧
      ∃ opened, calls new <+: attempt_calls keep_alive parser opened ∧
        ((open_camera d keep_alive parser log).1 = true →
          (attempt_calls keep_alive parser opened).dropLast <+: calls new) := by
  obtain ⟨b, new, he, ht⟩ := open_camera_trace d keep_alive parser log
  refine ⟨new, by rw [he], ?_⟩
  rw [he]
  dsimp only
  cases ht with
  | isOpened_raised => exact ⟨true, by simp [calls, attempt_calls], by simp⟩
  | open_raised => exact ⟨false, by simp [calls, attempt_calls], by simp⟩
  | open_failed => exact ⟨false, by simp [calls, attempt_calls], by simp⟩
  | already_open _ _ hp =>
    refine ⟨true, ?_⟩
    cases hp with
    | checked _ _ _ _ _ _ ha =>
      cases ha with
      | focus_on_raised h => simp [calls, attempt_calls, set_events, h]
      | focus_off_raised h1 h => simp [calls, attempt_calls, set_events, h1, h]
      | focus_on h _ _ _ hf =>
        cases hf <;> simp [calls, attempt_calls, set_events, h]
      | focus_off h1 h _ _ _ hf =>
        cases hf <;> simp [calls, attempt_calls, set_events, h1, h]
      | focus_unset h1 h2 _ _ hf =>
        cases hf <;> simp [calls, attempt_calls, set_events, h1, h2]
    | _ => simp [calls, attempt_calls, set_events]
  | opened _ _ hp =>
    refine ⟨false, ?_⟩
    cases hp with
    | checked _ _ _ _ _ _ ha =>
      cases ha with
      | focus_on_raised h => simp [calls, attempt_calls, set_events, h]
      | focus_off_raised h1 h => simp [calls, attempt_calls, set_events, h1, h]
      | focus_on h _ _ _ hf =>
        cases hf <;> simp [calls, attempt_calls, set_events, h]
      | focus_off h1 h _ _ _ hf =>
        cases hf <;> simp [calls, attempt_calls, set_events, h1, h]
      | focus_unset h1 h2 _ _ hf =>
        cases hf <;> simp [calls, attempt_calls, set_events, h1, h2]
    | _ => simp [calls, attempt_calls, set_events]

/-! ## The open step of an attempt -/

/-- C7: the open step of `open_camera`.  If `isOpened` returns true, no open request is
issued and the attempt goes on with the properties.  If `isOpened` returns false, exactly
one open request is issued; when it returns false, `open_camera` returns false after the
message of line 37, with no property set or get; when it returns true, the attempt goes
on with the properties.  And whenever a device call of the attempt throws
`RemoteException`, that call is the last event of the attempt and `open_camera` returns
false (its result is a plain boolean: nothing is thrown to the caller). -/
theorem open_camera_open_step (d : Env) (keep_alive : Bool) (parser : Parser) (log : Log) :
    (d.flag log (Call.isOpened (some keep_alive)) = some true →
      open_camera d keep_alive parser log
        = open_camera_properties d keep_alive parser
            (log ++ [Event.request (Call.isOpened (some keep_alive)) (Reply.flag true),
                     Event.cout Msg.opened_already]) ∧
      ∃ new, (open_camera d keep_alive parser log).2 = log ++ new ∧
        ∀ k, Call.open_ k ∉ calls new) ∧
    (d.flag log (Call.isOpened (some keep_alive)) = some false →
      (∃ new, (open_camera d keep_alive parser log).2 = log ++ new ∧
        List.count (Call.open_ (some keep_alive)) (calls new) = 1 ∧
        ∀ k, Call.open_ k ∈ calls new → k = some keep_alive) ∧
      (d.flag (log ++ [Event.request (Call.isOpened (some keep_alive)) (Reply.flag false)])
          (Call.open_ (some keep_alive)) = some false →
        open_camera d keep_alive parser log
          = (false, log ++ [Event.request (Call.isOpened (some keep_alive)) (Reply.flag false),
                            Event.request (Call.open_ (some keep_alive)) (Reply.flag false),
                            Event.cerr Msg.failed_to_open])) ∧
      (d.flag (log ++ [Event.request (Call.isOpened (some keep_alive)) (Reply.flag false)])
          (Call.open_ (some keep_alive)) = some true →
        open_camera d keep_alive parser log
          = open_camera_properties d keep_alive parser
              (log ++ [Event.request (Call.isOpened (some keep_alive)) (Reply.flag false),
                       Event.request (Call.open_ (some keep_alive)) (Reply.flag true)]))) ∧
    (∃ new, (open_camera d keep_alive parser log).2 = log ++ new ∧
      ∀ c, Event.request c Reply.RemoteException ∈ new →
        (open_camera d keep_alive parser log).1 = false ∧
        new.getLast? = some (Event.request c Reply.RemoteException)) := by
  refine ⟨?_, ?_, ?_⟩
  · intro h
    have he : open_camera d keep_alive parser log
        = open_camera_properties d keep_alive parser
            (log ++ [Event.request (Call.isOpened (some keep_alive)) (Reply.flag true),
                     Event.cout Msg.opened_already]) := by
      simp [open_camera, try_flag, h]
    refine ⟨he, ?_⟩
    obtain ⟨b, new, hp, ht⟩ := open_camera_properties_trace d keep_alive parser
      (log ++ [Event.request (Call.isOpened (some keep_alive)) (Reply.flag true),
               Event.cout Msg.opened_already])
    refine ⟨[Event.request (Call.isOpened (some keep_alive)) (Reply.flag true),
      Event.cout Msg.opened_already] ++ new, by rw [he, hp]; simp, ?_⟩
    intro k hk
    rw [calls_append, List.mem_append] at hk
    rcases hk with hk | hk
    · simp [calls] at hk
    · exact properties_trace_not_mem_calls ht _ (by simp) (by simp) hk
  · intro h
    refine ⟨?_, ?_, ?_⟩
    · cases h2 : d.flag (log ++ [Event.request (Call.isOpened (some keep_alive))
          (Reply.flag false)]) (Call.open_ (some keep_alive)) with
      | none =>
        exact ⟨[Event.request (Call.isOpened (some keep_alive)) (Reply.flag false),
          Event.request (Call.open_ (some keep_alive)) Reply.RemoteException],
          by simp [open_camera, try_flag, h, h2], by simp [calls], by simp [calls]⟩
      | some ok =>
        cases ok with
        | false =>
          exact ⟨[Event.request (Call.isOpened (some keep_alive)) (Reply.flag false),
            Event.request (Call.open_ (some keep_alive)) (Reply.flag false),
            Event.cerr Msg.failed_to_open],
            by simp [open_camera, try_flag, h, h2], by simp [calls], by simp [calls]⟩
        | true =>
          obtain ⟨b, new, hp, ht⟩ := open_camera_properties_trace d keep_alive parser
            (log ++ [Event.request (Call.isOpened (some keep_alive)) (Reply.flag false),
                     Event.request (Call.open_ (some keep_alive)) (Reply.flag true)])
          have hz : ∀ k, Call.open_ k ∉ calls new :=
            fun k => properties_trace_not_mem_calls ht _ (by simp) (by simp)
          refine ⟨[Event.request (Call.isOpened (some keep_alive)) (Reply.flag false),
            Event.request (Call.open_ (some keep_alive)) (Reply.flag true)] ++ new,
            by simp [open_camera, try_flag, h, h2, hp], ?_, ?_⟩
          · rw [calls_append, List.count_append, List.count_eq_zero.2 (hz _)]
            simp [calls]
          · intro k hk
            rw [calls_append, List.mem_append] at hk
            rcases hk with hk | hk
            · simpa [calls] using hk
            · exact absurd hk (hz k)
    · intro h2
      simp [open_camera, try_flag, h, h2]
    · intro h2
      simp [open_camera, try_flag, h, h2]
  · obtain ⟨b, new, he, ht⟩ := open_camera_trace d keep_alive parser log
    refine ⟨new, by rw [he], ?_⟩
    intro c hc
    rw [he]
    dsimp only
    cases ht with
    | isOpened_raised => simp at hc; subst hc; simp
    | open_raised => simp at hc; subst hc; simp
    | open_failed => simp at hc
    | already_open _ _ hp | opened _ _ hp =>
      cases hp with
      | checked _ _ _ _ _ _ ha =>
        cases ha with
        | focus_on_raised =>
          simp [set_events] at hc
          subst hc
          simp [set_events]
        | focus_off_raised =>
          simp [set_events] at hc
          subst hc
          simp [set_events]
        | focus_on _ _ _ _ hf | focus_off _ _ _ _ _ hf | focus_unset _ _ _ _ hf =>
          cases hf <;> simp [set_events] at hc <;> subst hc <;> simp [set_events]
      | _ =>
        simp [set_events] at hc <;> subst hc <;> simp [set_events]

/-- C7 at a camera that is closed and refuses to open. -/
theorem open_camera_open_step_witness :
    open_camera (faulty_camera 1) true default_keys []
      = (false, [] ++ [Event.request (Call.isOpened (some true)) (Reply.flag false),
                       Event.request (Call.open_ (some true)) (Reply.flag false),
                       Event.cerr Msg.failed_to_open]) :=
  ((open_camera_open_step (faulty_camera 1) true default_keys []).2.1 (by decide)).2.1
    (by decide)

/-! ## A read-back that differs aborts the attempt -/

/-- C8: in an attempt whose frame width read-back differs from the requested width,
`open_camera` writes "Failed to set frame width!" as its last event and returns false, and
that read-back is the last device call of the attempt: there is no read-back of height,
encoding or frame rate and no auto focus set.  The same holds for the frame height, which
is read back only after the width was found equal, and for the encoding, which is read
back only after width and height were found equal.  In `main`, a failed
attempt is followed by the report of lines 189-190 (228-229) and another attempt: neither
reconnect loop ever issues a frame retrieval. -/
theorem open_camera_abort_on_mismatch (d : Env) (keep_alive : Bool) (parser : Parser)
    (log : Log) (new : List Event)
    (hnew : (open_camera d keep_alive parser log).2 = log ++ new) :
    (∀ v, Event.request (Call.get Property.CAP_PROP_FRAME_WIDTH (some keep_alive))
        (Reply.value v) ∈ new → v.eq (Double.ofInt parser.frame_width) = false →
      (open_camera d keep_alive parser log).1 = false ∧
      new.getLast? = some (Event.cerr Msg.failed_frame_width) ∧
      (calls new).getLast? = some (Call.get Property.CAP_PROP_FRAME_WIDTH (some keep_alive)) ∧
      (∀ k, Call.get Property.CAP_PROP_FRAME_HEIGHT k ∉ calls new) ∧
      (∀ k, Call.get Property.CAP_PROP_FOURCC k ∉ calls new) ∧
      (∀ k, Call.get Property.CAP_PROP_FPS k ∉ calls new) ∧
      (∀ x k, Call.set Property.CAP_PROP_AUTOFOCUS x k ∉ calls new)) ∧
    (∀ v, Event.request (Call.get Property.CAP_PROP_FRAME_HEIGHT (some keep_alive))
        (Reply.value v) ∈ new → v.eq (Double.ofInt parser.frame_height) = false →
      (open_camera d keep_alive parser log).1 = false ∧
      new.getLast? = some (Event.cerr Msg.failed_frame_height) ∧
      (calls new).getLast? = some (Call.get Property.CAP_PROP_FRAME_HEIGHT (some keep_alive)) ∧
      (∀ k, Call.get Property.CAP_PROP_FOURCC k ∉ calls new) ∧
      (∀ k, Call.get Property.CAP_PROP_FPS k ∉ calls new) ∧
      (∀ x k, Call.set Property.CAP_PROP_AUTOFOCUS x k ∉ calls new) ∧
      Event.request (Call.get Property.CAP_PROP_FRAME_WIDTH (some keep_alive))
        (Reply.value (Double.ofInt parser.frame_width)) ∈ new) ∧
    (∀ v, Event.request (Call.get Property.CAP_PROP_FOURCC (some keep_alive))
        (Reply.value v) ∈ new → v.eq (Double.ofInt (fourcc 'M' 'J' 'P' 'G')) = false →
      (open_camera d keep_alive parser log).1 = false ∧
      new.getLast? = some (Event.cerr Msg.failed_mjpg) ∧
      (calls new).getLast? = some (Call.get Property.CAP_PROP_FOURCC (some keep_alive)) ∧
      (∀ k, Call.get Property.CAP_PROP_FPS k ∉ calls new) ∧
      (∀ x k, Call.set Property.CAP_PROP_AUTOFOCUS x k ∉ calls new) ∧
      Event.request (Call.get Property.CAP_PROP_FRAME_WIDTH (some keep_alive))
        (Reply.value (Double.ofInt parser.frame_width)) ∈ new ∧
      Event.request (Call.get Property.CAP_PROP_FRAME_HEIGHT (some keep_alive))
        (Reply.value (Double.ofInt parser.frame_height)) ∈ new) ∧
    (∀ fuel (s : MainState), s.success = false →
      (open_camera d keep_alive parser s.log).1 = false →
      main_startup_loop d keep_alive parser (fuel + 1) s
        = main_startup_loop d keep_alive parser fuel
            (report_failed_attempt
              { s with success := false, log := (open_camera d keep_alive parser s.log).2 })) ∧
    (∀ fuel (s : MainState), (open_camera d keep_alive parser s.log).1 = false →
      main_reopen_loop d keep_alive parser (fuel + 1) s
        = main_reopen_loop d keep_alive parser fuel
            (report_failed_attempt
              { s with log := (open_camera d keep_alive parser s.log).2 })) ∧
    (∀ fuel (s : MainState), ∃ added,
      (main_startup_loop d keep_alive parser fuel s).log = s.log ++ added ∧
      ∀ k, Call.retrieve k ∉ calls added) ∧
    (∀ fuel (s : MainState), ∃ added,
      (main_reopen_loop d keep_alive parser fuel s).log = s.log ++ added ∧
      ∀ k, Call.retrieve k ∉ calls added) := by
  have hne : ∀ (v : Double) (n : Int), v.eq (Double.ofInt n) = false → v ≠ Double.ofInt n :=
    fun v n hv e => by simp [(Double.eq_ofInt_iff v n).2 e] at hv
  obtain ⟨b, new', he, ht⟩ := open_camera_trace d keep_alive parser log
  rw [he] at hnew
  have hn : new' = new := List.append_cancel_left hnew
  subst hn
  rw [he]
  dsimp only
  refine ⟨?_, ?_, ?_, ?_, ?_, ?_, ?_⟩
  · intro v hv hd
    have hd := hne v _ hd
    cases ht with
    | isOpened_raised => simp at hv
    | open_raised => simp at hv
    | open_failed => simp at hv
    | already_open _ _ hp | opened _ _ hp =>
      cases hp with
      | checked _ _ _ _ _ _ ha =>
        exfalso
        cases ha with
        | focus_on_raised => simp [set_events] at hv; exact hd hv
        | focus_off_raised => simp [set_events] at hv; exact hd hv
        | focus_on _ _ _ _ hf | focus_off _ _ _ _ _ hf | focus_unset _ _ _ _ hf =>
          cases hf <;> simp [set_events] at hv <;> exact hd hv
      | width_differs => simp [set_events, calls]
      | _ => simp [set_events] at hv <;> exact absurd hv hd
  · intro v hv hd
    have hd := hne v _ hd
    cases ht with
    | isOpened_raised => simp at hv
    | open_raised => simp at hv
    | open_failed => simp at hv
    | already_open _ _ hp | opened _ _ hp =>
      cases hp with
      | checked _ _ _ _ _ _ ha =>
        exfalso
        cases ha with
        | focus_on_raised => simp [set_events] at hv; exact hd hv
        | focus_off_raised => simp [set_events] at hv; exact hd hv
        | focus_on _ _ _ _ hf | focus_off _ _ _ _ _ hf | focus_unset _ _ _ _ hf =>
          cases hf <;> simp [set_events] at hv <;> exact hd hv
      | height_differs => simp [set_events, calls]
      | _ => simp [set_events] at hv <;> exact absurd hv hd
  · intro v hv hd
    have hd := hne v _ hd
    cases ht with
    | isOpened_raised => simp at hv
    | open_raised => simp at hv
    | open_failed => simp at hv
    | already_open _ _ hp | opened _ _ hp =>
      cases hp with
      | checked _ _ _ _ _ _ ha =>
        exfalso
        cases ha with
        | focus_on_raised => simp [set_events] at hv; exact hd hv
        | focus_off_raised => simp [set_events] at hv; exact hd hv
        | focus_on _ _ _ _ hf | focus_off _ _ _ _ _ hf | focus_unset _ _ _ _ hf =>
          cases hf <;> simp [set_events] at hv <;> exact hd hv
      | fourcc_differs => simp [set_events, calls]
      | _ => simp [set_events] at hv
  · intro fuel s hs hf
    conv_lhs => unfold main_startup_loop
    simp [hs, hf]
  · intro fuel s hf
    conv_lhs => unfold main_reopen_loop
    simp [hf]
  · intro fuel s
    obtain ⟨added, h1, h2, -⟩ := main_startup_loop_log d keep_alive parser fuel s
    exact ⟨added, h1, h2⟩
  · intro fuel s
    obtain ⟨added, h1, h2, -⟩ := main_reopen_loop_log d keep_alive parser fuel s
    exact ⟨added, h1, h2⟩

/-- C8 at the scenario of the specification: a width of 320 is requested and the camera
reads back 160. -/
theorem open_camera_abort_on_mismatch_witness :
    (open_camera (sample_camera (Double.ofInt 160) (Double.ofInt 240)
      (Double.ofInt 1196444237) (Double.ofInt 30)) true default_keys []).1 = false ∧
    [Event.request (Call.isOpened (some true)) (Reply.flag true),
      Event.cout Msg.opened_already,
      Event.request (Call.set Property.CAP_PROP_FRAME_WIDTH (Double.ofInt 320) (some true))
        (Reply.flag true),
      Event.request (Call.set Property.CAP_PROP_FRAME_HEIGHT (Double.ofInt 240) (some true))
        (Reply.flag true),
      Event.request (Call.set Property.CAP_PROP_FOURCC (Double.ofInt 1196444237) (some true))
        (Reply.flag true),
      Event.request (Call.set Property.CAP_PROP_FPS (Double.ofInt 30) (some true))
        (Reply.flag true),
      Event.request (Call.get Property.CAP_PROP_FRAME_WIDTH (some true))
        (Reply.value (Double.ofInt 160)),
      Event.cerr Msg.failed_frame_width].getLast?
      = some (Event.cerr Msg.failed_frame_width) ∧
    (calls
      [Event.request (Call.isOpened (some true)) (Reply.flag true),
       Event.cout Msg.opened_already,
       Event.request (Call.set Property.CAP_PROP_FRAME_WIDTH (Double.ofInt 320) (some true))
         (Reply.flag true),
       Event.request (Call.set Property.CAP_PROP_FRAME_HEIGHT (Double.ofInt 240) (some true))
         (Reply.flag true),
       Event.request (Call.set Property.CAP_PROP_FOURCC (Double.ofInt 1196444237) (some true))
         (Reply.flag true),
       Event.request (Call.set Property.CAP_PROP_FPS (Double.ofInt 30) (some true))
         (Reply.flag true),
       Event.request (Call.get Property.CAP_PROP_FRAME_WIDTH (some true))
         (Reply.value (Double.ofInt 160)),
       Event.cerr Msg.failed_frame_width]).getLast?
      = some (Call.get Property.CAP_PROP_FRAME_WIDTH (some true)) :=
  have h := (open_camera_abort_on_mismatch
    (sample_camera (Double.ofInt 160) (Double.ofInt 240) (Double.ofInt 1196444237)
      (Double.ofInt 30)) true default_keys []
    [Event.request (Call.isOpened (some true)) (Reply.flag true),
     Event.cout Msg.opened_already,
     Event.request (Call.set Property.CAP_PROP_FRAME_WIDTH (Double.ofInt 320) (some true))
       (Reply.flag true),
     Event.request (Call.set Property.CAP_PROP_FRAME_HEIGHT (Double.ofInt 240) (some true))
       (Reply.flag true),
     Event.request (Call.set Property.CAP_PROP_FOURCC (Double.ofInt 1196444237) (some true))
       (Reply.flag true),
     Event.request (Call.set Property.CAP_PROP_FPS (Double.ofInt 30) (some true))
       (Reply.flag true),
     Event.request (Call.get Property.CAP_PROP_FRAME_WIDTH (some true))
       (Reply.value (Double.ofInt 160)),
     Event.cerr Msg.failed_frame_width]
    (by decide)).1 (Double.ofInt 160) (by decide) (by decide)
  ⟨h.1, h.2.1, h.2.2.1⟩

/-! ## The ping loop -/

/-- The ping loop started at any index `i` from 0 to 11: it ends normally, or a ping
throws and ends it. -/
theorem main_ping_loop_general (d : Env) (keep_alive : Bool) :
    ∀ (fuel : Nat) (i : Int) (log : Log), 0 ≤ i → i ≤ 11 → 1 ≤ fuel →
      11 - i ≤ (fuel : Int) →
      ∃ new,
        (∀ before r after,
          new = before ++ Event.request (Call.ping (some keep_alive)) r :: after →
          i + 2 * (pings keep_alive true before : Int) + (pings keep_alive false before : Int)
            < 10) ∧
        ((∃ i', main_ping_loop d keep_alive fuel i log = Run.done (i', log ++ new) ∧
            i' = i + 2 * (pings keep_alive true new : Int)
              + (pings keep_alive false new : Int) ∧
            10 ≤ i' ∧ i' ≤ 11 ∧ (i' = 11 → i = 11 ∨ 1 ≤ pings keep_alive true new) ∧
            List.count (Call.ping (some keep_alive)) (calls new)
              = pings keep_alive true new + pings keep_alive false new ∧
            ∀ c, Event.request c Reply.RemoteException ∉ new) ∨
          (main_ping_loop d keep_alive fuel i log = Run.terminated (log ++ new) ∧
            new.getLast? = some (Event.request (Call.ping (some keep_alive))
              Reply.RemoteException) ∧
            (∃ l, d.flag l (Call.ping (some keep_alive)) = none) ∧
            i + 2 * (pings keep_alive true new : Int) + (pings keep_alive false new : Int)
              < 10 ∧
            List.count (Call.ping (some keep_alive)) (calls new)
              = pings keep_alive true new + pings keep_alive false new + 1)) := by
  intro fuel
  induction fuel with
  | zero => intro i log _ _ h; omega
  | succ fuel ih =>
    intro i log h0 h11 _ hfuel
    unfold main_ping_loop
    by_cases hi : i < 10
    · rw [if_pos hi]
      cases hp : d.flag log (Call.ping (some keep_alive)) with
      | none =>
        refine ⟨[Event.request (Call.ping (some keep_alive)) Reply.RemoteException], ?_,
          Or.inr ⟨rfl, rfl, ⟨log, hp⟩, by simpa [pings] using hi, by simp [pings, calls]⟩⟩
        intro before r after hnew
        rcases before with _ | ⟨e, before⟩
        · simpa [pings] using hi
        · simp at hnew
      | some b =>
        cases b with
        | true =>
          dsimp only
          have e1 : int32 (i + 1) = i + 1 := int32_of_range _ (by omega) (by omega)
          have e2 : int32 (i + 1 + 1) = i + 2 := by
            rw [int32_of_range _ (by omega) (by omega)]; ring
          rw [e1, e2]
          obtain ⟨new, hstop, hres⟩ :=
            ih (i + 2) (log ++ [Event.request (Call.ping (some keep_alive)) (Reply.flag true),
              Event.cout (Msg.ping_replied (i + 1))]) (by omega) (by omega)
              (by omega) (by push_cast at hfuel; omega)
          refine ⟨[Event.request (Call.ping (some keep_alive)) (Reply.flag true),
              Event.cout (Msg.ping_replied (i + 1))] ++ new, ?_, ?_⟩
          · intro before r after hnew
            rcases before with _ | ⟨e, before⟩
            · simpa [pings] using hi
            · simp only [List.cons_append, List.cons.injEq] at hnew
              obtain ⟨rfl, hnew⟩ := hnew
              rcases before with _ | ⟨e', before⟩
              · simp at hnew
              · simp only [List.cons_append, List.cons.injEq] at hnew
                obtain ⟨rfl, hnew⟩ := hnew
                have := hstop before r after hnew
                simp [pings, List.count_cons] at this ⊢
                omega
          · rcases hres with ⟨i', hrun, hi', h10, hle, h11', hcount, hno⟩ |
              ⟨hrun, hlast, hl, hlt, hcount⟩
            · refine Or.inl ⟨i', ?_, ?_, h10, hle, ?_, ?_, ?_⟩
              · rw [hrun]; simp
              · rw [hi']; simp [pings, List.count_cons]; ring
              · intro _; right; simp [pings, List.count_cons]
              · rw [calls_append, List.count_append, hcount]
                simp [calls, pings, List.count_cons]
                try omega
              · intro c hc
                simp only [List.mem_append] at hc
                rcases hc with hc | hc
                · simp at hc
                · exact hno c hc
            · refine Or.inr ⟨?_, ?_, hl, ?_, ?_⟩
              · rw [hrun]; simp
              · rw [List.getLast?_append, hlast]; rfl
              · simp [pings, List.count_cons] at hlt ⊢
                omega
              · rw [calls_append, List.count_append, hcount]
                simp [calls, pings, List.count_cons]
                try omega
        | false =>
          dsimp only
          have e1 : int32 (i + 1) = i + 1 := int32_of_range _ (by omega) (by omega)
          rw [e1]
          obtain ⟨new, hstop, hres⟩ :=
            ih (i + 1) (log ++ [Event.request (Call.ping (some keep_alive)) (Reply.flag false)])
              (by omega) (by omega) (by omega) (by push_cast at hfuel; omega)
          refine ⟨[Event.request (Call.ping (some keep_alive)) (Reply.flag false)] ++ new,
            ?_, ?_⟩
          · intro before r after hnew
            rcases before with _ | ⟨e, before⟩
            · simpa [pings] using hi
            · simp only [List.cons_append, List.cons.injEq] at hnew
              obtain ⟨rfl, hnew⟩ := hnew
              have := hstop before r after hnew
              simp [pings, List.count_cons] at this ⊢
              omega
          · rcases hres with ⟨i', hrun, hi', h10, hle, h11', hcount, hno⟩ |
              ⟨hrun, hlast, hl, hlt, hcount⟩
            · refine Or.inl ⟨i', ?_, ?_, h10, hle, ?_, ?_, ?_⟩
              · rw [hrun]; simp
              · rw [hi']; simp [pings, List.count_cons]; ring
              · intro h; right
                rcases h11' h with h | h
                · omega
                · simpa [pings, List.count_cons] using h
              · rw [calls_append, List.count_append, hcount]
                simp [calls, pings, List.count_cons]
                try omega
              · intro c hc
                simp only [List.mem_append] at hc
                rcases hc with hc | hc
                · simp at hc
                · exact hno c hc
            · refine Or.inr ⟨?_, ?_, hl, ?_, ?_⟩
              · rw [hrun]; simp
              · rw [List.getLast?_append, hlast]; rfl
              · simp [pings, List.count_cons] at hlt ⊢
                omega
              · rw [calls_append, List.count_append, hcount]
                simp [calls, pings, List.count_cons]
                try omega
    · rw [if_neg hi]
      refine ⟨[], ?_, Or.inl ⟨i, by simp, by simp [pings], by omega, h11, ?_,
        by simp [pings, calls], by simp⟩⟩
      · intro before r after hnew
        simp at hnew
      · intro h; left; exact h

/-- C9, as stated, fails: the ping of line 174 is outside any `try`.  With a camera whose
ping throws `RemoteException`, the loop is ended by the first ping: one ping, not five. -/
theorem main_ping_loop_thrown :
    main_ping_loop lost_camera true 11 0 []
      = Run.terminated [Event.request (Call.ping (some true)) Reply.RemoteException] ∧
    List.count (Call.ping (some true))
      (calls [Event.request (Call.ping (some true)) Reply.RemoteException]) = 1 :=
  ⟨rfl, by decide⟩

/-- C9, amended: the ping loop of `main` (lines 173-177) issues at most 10 pings, each
while `2 * successes + failures` is still below 10.  Either no ping throws: then the loop
ends with `i = 2 * successes + failures`, which is at least 10, after between 5 and 10
pings; exactly 5 when every ping succeeds, reported as pings 1, 3, 5, 7 and 9, and exactly
10 when every ping fails.  Or a ping throws `RemoteException`: it is not caught, and that
ping is the last event of the loop.  The fuel counts the evaluations of the loop
condition. -/
theorem main_ping_loop_pings (d : Env) (keep_alive : Bool) (log : Log) (fuel : Nat)
    (hfuel : 11 ≤ fuel) :
    ∃ new,
      List.count (Call.ping (some keep_alive)) (calls new) ≤ 10 ∧
      (∀ before r after,
        new = before ++ Event.request (Call.ping (some keep_alive)) r :: after →
        2 * pings keep_alive true before + pings keep_alive false before < 10) ∧
      ((∃ i, main_ping_loop d keep_alive fuel 0 log = Run.done (i, log ++ new) ∧
          (∀ c, Event.request c Reply.RemoteException ∉ new) ∧
          i = 2 * (pings keep_alive true new : Int) + (pings keep_alive false new : Int) ∧
          10 ≤ i ∧
          List.count (Call.ping (some keep_alive)) (calls new)
            = pings keep_alive true new + pings keep_alive false new ∧
          5 ≤ List.count (Call.ping (some keep_alive)) (calls new)) ∨
        (main_ping_loop d keep_alive fuel 0 log = Run.terminated (log ++ new) ∧
          new.getLast? = some (Event.request (Call.ping (some keep_alive))
            Reply.RemoteException) ∧
          ∃ l, d.flag l (Call.ping (some keep_alive)) = none)) ∧
      ((∀ l, d.flag l (Call.ping (some keep_alive)) = some true) →
        new = [Event.request (Call.ping (some keep_alive)) (Reply.flag true),
               Event.cout (Msg.ping_replied 1),
               Event.request (Call.ping (some keep_alive)) (Reply.flag true),
               Event.cout (Msg.ping_replied 3),
               Event.request (Call.ping (some keep_alive)) (Reply.flag true),
               Event.cout (Msg.ping_replied 5),
               Event.request (Call.ping (some keep_alive)) (Reply.flag true),
               Event.cout (Msg.ping_replied 7),
               Event.request (Call.ping (some keep_alive)) (Reply.flag true),
               Event.cout (Msg.ping_replied 9)]) ∧
      ((∀ l, d.flag l (Call.ping (some keep_alive)) = some false) →
        new = List.replicate 10
          (Event.request (Call.ping (some keep_alive)) (Reply.flag false))) := by
  obtain ⟨new, hstop, hres⟩ :=
    main_ping_loop_general d keep_alive fuel 0 log (by omega) (by omega) (by omega)
      (by omega)
  obtain ⟨f, rfl⟩ : ∃ f, fuel = f + 11 := ⟨fuel - 11, by omega⟩
  have hlog : (match main_ping_loop d keep_alive (f + 11) 0 log with
      | Run.done (_, l) => l
      | Run.terminated l => l
      | Run.running l => l) = log ++ new := by
    rcases hres with ⟨i, hrun, -⟩ | ⟨hrun, -⟩ <;> rw [hrun]
  refine ⟨new, ?_, ?_, ?_, ?_, ?_⟩
  · rcases hres with ⟨i, hrun, hi, h10, hle, h11, hcount, hno⟩ | ⟨hrun, hlast, hl, hlt, hcount⟩
    · rw [hcount]
      by_cases h : i = 11
      · rcases h11 h with h' | h' <;> omega
      · omega
    · rw [hcount]
      omega
  · intro before r after hnew
    have := hstop before r after hnew
    omega
  · rcases hres with ⟨i, hrun, hi, h10, hle, h11, hcount, hno⟩ | ⟨hrun, hlast, hl, hlt, hcount⟩
    · exact Or.inl ⟨i, hrun, hno, by simpa using hi, h10, hcount, by rw [hcount]; omega⟩
    · exact Or.inr ⟨hrun, hlast, hl⟩
  · intro hall
    have hexp : main_ping_loop d keep_alive (f + 11) 0 log = Run.done (10, log ++
        [Event.request (Call.ping (some keep_alive)) (Reply.flag true),
         Event.cout (Msg.ping_replied 1),
         Event.request (Call.ping (some keep_alive)) (Reply.flag true),
         Event.cout (Msg.ping_replied 3),
         Event.request (Call.ping (some keep_alive)) (Reply.flag true),
         Event.cout (Msg.ping_replied 5),
         Event.request (Call.ping (some keep_alive)) (Reply.flag true),
         Event.cout (Msg.ping_replied 7),
         Event.request (Call.ping (some keep_alive)) (Reply.flag true),
         Event.cout (Msg.ping_replied 9)]) := by
      simp [main_ping_loop, hall, int32]
    rw [hexp] at hlog
    exact (List.append_cancel_left hlog).symm
  · intro hall
    have hexp : main_ping_loop d keep_alive (f + 11) 0 log = Run.done (10, log ++
        List.replicate 10 (Event.request (Call.ping (some keep_alive)) (Reply.flag false)))
        := by
      simp [main_ping_loop, hall, int32, List.replicate]
    rw [hexp] at hlog
    exact (List.append_cancel_left hlog).symm

/-- C9, amended, at the good camera, whose pings all succeed, with fuel 11. -/
theorem main_ping_loop_pings_witness :
    ∃ new,
      List.count (Call.ping (some true)) (calls new) ≤ 10 ∧
      (∀ before r after,
        new = before ++ Event.request (Call.ping (some true)) r :: after →
        2 * pings true true before + pings true false before < 10) ∧
      ((∃ i, main_ping_loop good_camera true 11 0 [] = Run.done (i, [] ++ new) ∧
          (∀ c, Event.request c Reply.RemoteException ∉ new) ∧
          i = 2 * (pings true true new : Int) + (pings true false new : Int) ∧
          10 ≤ i ∧
          List.count (Call.ping (some true)) (calls new)
            = pings true true new + pings true false new ∧
          5 ≤ List.count (Call.ping (some true)) (calls new)) ∨
        (main_ping_loop good_camera true 11 0 [] = Run.terminated ([] ++ new) ∧
          new.getLast? = some (Event.request (Call.ping (some true))
            Reply.RemoteException) ∧
          ∃ l, good_camera.flag l (Call.ping (some true)) = none)) ∧
      ((∀ l, good_camera.flag l (Call.ping (some true)) = some true) →
        new = [Event.request (Call.ping (some true)) (Reply.flag true),
               Event.cout (Msg.ping_replied 1),
               Event.request (Call.ping (some true)) (Reply.flag true),
               Event.cout (Msg.ping_replied 3),
               Event.request (Call.ping (some true)) (Reply.flag true),
               Event.cout (Msg.ping_replied 5),
               Event.request (Call.ping (some true)) (Reply.flag true),
               Event.cout (Msg.ping_replied 7),
               Event.request (Call.ping (some true)) (Reply.flag true),
               Event.cout (Msg.ping_replied 9)]) ∧
      ((∀ l, good_camera.flag l (Call.ping (some true)) = some false) →
        new = List.replicate 10 (Event.request (Call.ping (some true)) (Reply.flag false))) :=
  main_ping_loop_pings good_camera true [] 11 (by decide)

/-! ## The number of passes through the capture loop -/

/-- The reconnect loop leaves `key` as it is. -/
theorem main_reopen_loop_key (d : Env) (keep_alive : Bool) (parser : Parser) (fuel : Nat) :
    ∀ s s' : MainState, main_reopen_loop d keep_alive parser fuel s = Run.done s' →
      s'.key = s.key := by
  induction fuel with
  | zero =>
    intro s s' h
    simp [main_reopen_loop] at h
  | succ fuel ih =>
    intro s s' h
    unfold main_reopen_loop at h
    dsimp only at h
    split at h
    · simpa [report_failed_attempt] using ih _ _ h
    · injection h with h
      subst h
      rfl

/-- More fuel does not change a finished run of the reconnect loop. -/
theorem main_reopen_loop_mono (d : Env) (keep_alive : Bool) (parser : Parser) (fuel : Nat) :
    ∀ s s' : MainState, main_reopen_loop d keep_alive parser fuel s = Run.done s' →
      main_reopen_loop d keep_alive parser (fuel + 1) s = Run.done s' := by
  induction fuel with
  | zero =>
    intro s s' h
    simp [main_reopen_loop] at h
  | succ fuel ih =>
    intro s s' h
    unfold main_reopen_loop at h ⊢
    dsimp only at h ⊢
    split
    · rename_i hc
      rw [if_pos hc] at h
      exact ih _ _ h
    · rename_i hc
      rw [if_neg hc] at h
      exact h

/-- More fuel does not change a finished pass. -/
theorem main_capture_body_mono (d : Env) (keep_alive : Bool) (parser : Parser) (fuel : Nat)
    (i : Int) (s s' : MainState)
    (h : main_capture_body d keep_alive parser fuel i s = Run.done s') :
    main_capture_body d keep_alive parser (fuel + 1) i s = Run.done s' := by
  by_cases hf : d.flag s.log (Call.retrieve (some keep_alive)) = some true
  · unfold main_capture_body at h ⊢
    simpa [hf] using h
  · rw [main_capture_body_failed d keep_alive parser _ i s hf] at h ⊢
    exact main_reopen_loop_mono d keep_alive parser fuel _ _ h

/-- More fuel does not change a finished run of the capture loop. -/
theorem main_capture_loop_mono (d : Env) (keep_alive : Bool) (parser : Parser) (n c : Int)
    (fuel : Nat) :
    ∀ (i : Int) (s s' : MainState),
      main_capture_loop d keep_alive parser n c fuel i s = Run.done s' →
      main_capture_loop d keep_alive parser n c (fuel + 1) i s = Run.done s' := by
  induction fuel with
  | zero =>
    intro i s s' h
    simp [main_capture_loop] at h
  | succ fuel ih =>
    intro i s s' h
    unfold main_capture_loop at h ⊢
    split
    · rename_i hc
      rw [if_pos hc] at h
      cases hb : main_capture_body d keep_alive parser fuel i s with
      | done s1 =>
        rw [hb] at h
        rw [main_capture_body_mono d keep_alive parser fuel i s s1 hb]
        exact ih _ _ _ h
      | terminated l => rw [hb] at h; simp at h
      | running l => rw [hb] at h; simp at h
    · rename_i hc
      rw [if_neg hc] at h
      exact h

/-- Any larger fuel does not change a finished pass. -/
theorem main_capture_body_mono_le (d : Env) (keep_alive : Bool) (parser : Parser)
    (i : Int) (s s' : MainState) (fuel fuel' : Nat) (hle : fuel ≤ fuel')
    (h : main_capture_body d keep_alive parser fuel i s = Run.done s') :
    main_capture_body d keep_alive parser fuel' i s = Run.done s' := by
  induction hle with
  | refl => exact h
  | step _ ih => exact main_capture_body_mono d keep_alive parser _ i s s' ih

/-- Any larger fuel does not change a finished run of the capture loop. -/
theorem main_capture_loop_mono_le (d : Env) (keep_alive : Bool) (parser : Parser) (n c : Int)
    (i : Int) (s s' : MainState) (fuel fuel' : Nat) (hle : fuel ≤ fuel')
    (h : main_capture_loop d keep_alive parser n c fuel i s = Run.done s') :
    main_capture_loop d keep_alive parser n c fuel' i s = Run.done s' := by
  induction hle with
  | refl => exact h
  | step _ ih => exact main_capture_loop_mono d keep_alive parser n c _ i s s' ih

/-- A finished pass has added one retrieval, and `key` is unchanged or a result of
`cv::waitKey`. -/
theorem main_capture_body_done (d : Env) (keep_alive : Bool) (parser : Parser) (fuel : Nat)
    (i : Int) (s s' : MainState)
    (h : main_capture_body d keep_alive parser fuel i s = Run.done s') :
    (∃ new, s'.log = s.log ++ new ∧
      List.count (Call.retrieve (some keep_alive)) (calls new) = 1) ∧
    (s'.key = s.key ∨ ∃ l, s'.key = d.waitKey l) := by
  by_cases hf : d.flag s.log (Call.retrieve (some keep_alive)) = some true
  · unfold main_capture_body at h
    simp only [hf, Option.getD_some, Bool.not_true, Bool.false_eq_true, if_false] at h
    by_cases hw : d.loop (s.log ++ [Event.request (Call.retrieve (some keep_alive))
        (Reply.ofFlag (some true))]) (d.image_size (s.log ++
          [Event.request (Call.retrieve (some keep_alive)) (Reply.ofFlag (some true))])) = true
      <;> by_cases hs : parser.show_images = true
      <;> simp only [hw, hs, if_true, if_false, Bool.false_eq_true] at h
      <;> injection h with h <;> subst h
      <;> refine ⟨⟨_, by simp; rfl, by simp [calls]⟩, ?_⟩
      <;> first
        | exact Or.inl rfl
        | exact Or.inr ⟨_, rfl⟩
  · rw [main_capture_body_failed d keep_alive parser fuel i s hf] at h
    have hk := main_reopen_loop_key d keep_alive parser fuel _ _ h
    obtain ⟨new, h1, hr, -⟩ := main_reopen_loop_log d keep_alive parser fuel
      { s with
        success := false
        log := capture_failure_log keep_alive i s
              (Reply.ofFlag (d.flag s.log (Call.retrieve (some keep_alive)))) }
    rw [h] at h1
    rw [Run.log] at h1
    refine ⟨⟨[Event.request (Call.retrieve (some keep_alive))
        (Reply.ofFlag (d.flag s.log (Call.retrieve (some keep_alive))))]
      ++ (if s.notify_loss_of_connection then [Event.cerr (Msg.failed_to_grab i)] else [])
      ++ [Event.reset] ++ new, by rw [h1]; simp [capture_failure_log], ?_⟩, Or.inl hk⟩
    simp only [calls_append, List.count_append, List.count_eq_zero.2 (hr _)]
    cases s.notify_loss_of_connection <;> simp [calls]

/-- A finished capture loop with step 1 and no key 27 has made `n - i` retrievals. -/
theorem main_capture_loop_count (d : Env) (keep_alive : Bool) (parser : Parser)
    (n : Int) (hn : n ≤ 2147483647) (hkey : ∀ l, d.waitKey l ≠ 27) :
    ∀ (fuel : Nat) (i : Int) (s s' : MainState), 0 ≤ i → i ≤ n → s.key ≠ 27 →
      main_capture_loop d keep_alive parser n 1 fuel i s = Run.done s' →
      ∃ new, s'.log = s.log ++ new ∧
        (List.count (Call.retrieve (some keep_alive)) (calls new) : Int) = n - i := by
  intro fuel
  induction fuel with
  | zero =>
    intro i s s' _ _ _ h
    simp [main_capture_loop] at h
  | succ fuel ih =>
    intro i s s' hi hin hk h
    unfold main_capture_loop at h
    by_cases hc : s.key ≠ 27 ∧ i < n
    · rw [if_pos hc] at h
      cases hb : main_capture_body d keep_alive parser fuel i s with
      | done s1 =>
        rw [hb] at h
        dsimp only at h
        rw [int32_of_range _ (by omega) (by have := hc.2; omega)] at h
        obtain ⟨⟨new1, hl1, hc1⟩, hk1⟩ :=
          main_capture_body_done d keep_alive parser fuel i s s1 hb
        have hk1' : s1.key ≠ 27 := by
          rcases hk1 with e | ⟨l, e⟩
          · rw [e]; exact hk
          · rw [e]; exact hkey l
        obtain ⟨new2, hl2, hc2⟩ := ih (i + 1) s1 s' (by omega) (by have := hc.2; omega) hk1' h
        refine ⟨new1 ++ new2, by rw [hl2, hl1]; simp, ?_⟩
        rw [calls_append, List.count_append]
        push_cast
        rw [hc2, hc1]
        push_cast
        ring
      | terminated l => rw [hb] at h; simp at h
      | running l => rw [hb] at h; simp at h
    · rw [if_neg hc] at h
      injection h with h
      subst h
      refine ⟨[], by simp, ?_⟩
      have : ¬ i < n := fun hlt => hc ⟨hk, hlt⟩
      simp [calls]
      omega

/-- With bound 1 and step 0 the capture loop ends only with `key = 27`. -/
theorem main_capture_loop_only_key (d : Env) (keep_alive : Bool) (parser : Parser) :
    ∀ (fuel : Nat) (s s' : MainState),
      main_capture_loop d keep_alive parser 1 0 fuel 0 s = Run.done s' → s'.key = 27 := by
  intro fuel
  induction fuel with
  | zero =>
    intro s s' h
    simp [main_capture_loop] at h
  | succ fuel ih =>
    intro s s' h
    unfold main_capture_loop at h
    by_cases hc : s.key ≠ 27 ∧ (0 : Int) < 1
    · rw [if_pos hc] at h
      cases hb : main_capture_body d keep_alive parser fuel 0 s with
      | done s1 =>
        rw [hb] at h
        exact ih s1 s' h
      | terminated l => rw [hb] at h; simp at h
      | running l => rw [hb] at h; simp at h
    · rw [if_neg hc] at h
      injection h with h
      subst h
      by_contra hne
      exact hc ⟨hne, by decide⟩

/-- A pass, finished or not, has added one retrieval. -/
theorem main_capture_body_log (d : Env) (keep_alive : Bool) (parser : Parser) (fuel : Nat)
    (i : Int) (s : MainState) :
    ∃ new, (main_capture_body d keep_alive parser fuel i s).log = s.log ++ new ∧
      List.count (Call.retrieve (some keep_alive)) (calls new) = 1 := by
  by_cases hf : d.flag s.log (Call.retrieve (some keep_alive)) = some true
  · cases hb : main_capture_body d keep_alive parser fuel i s with
    | done s1 =>
      obtain ⟨⟨new, h1, h2⟩, -⟩ := main_capture_body_done d keep_alive parser fuel i s s1 hb
      exact ⟨new, h1, h2⟩
    | terminated l =>
      exfalso
      unfold main_capture_body at hb
      simp only [hf, Option.getD_some, Bool.not_true, Bool.false_eq_true, if_false] at hb
      split at hb <;> simp at hb
    | running l =>
      exfalso
      unfold main_capture_body at hb
      simp only [hf, Option.getD_some, Bool.not_true, Bool.false_eq_true, if_false] at hb
      split at hb <;> simp at hb
  · rw [main_capture_body_failed d keep_alive parser fuel i s hf]
    obtain ⟨new, h1, hr, -⟩ := main_reopen_loop_log d keep_alive parser fuel
      { s with
        success := false
        log := capture_failure_log keep_alive i s
              (Reply.ofFlag (d.flag s.log (Call.retrieve (some keep_alive)))) }
    refine ⟨[Event.request (Call.retrieve (some keep_alive))
        (Reply.ofFlag (d.flag s.log (Call.retrieve (some keep_alive))))]
      ++ (if s.notify_loss_of_connection then [Event.cerr (Msg.failed_to_grab i)] else [])
      ++ [Event.reset] ++ new, by rw [h1]; simp [capture_failure_log], ?_⟩
    simp only [calls_append, List.count_append, List.count_eq_zero.2 (hr _)]
    cases s.notify_loss_of_connection <;> simp [calls]

/-- The capture loop with step 1 never makes more than `n - i` retrievals. -/
theorem main_capture_loop_at_most (d : Env) (keep_alive : Bool) (parser : Parser)
    (n : Int) (hn : n ≤ 2147483647) :
    ∀ (fuel : Nat) (i : Int) (s : MainState), 0 ≤ i → i ≤ n →
      ∃ new, (main_capture_loop d keep_alive parser n 1 fuel i s).log = s.log ++ new ∧
        (List.count (Call.retrieve (some keep_alive)) (calls new) : Int) ≤ n - i := by
  intro fuel
  induction fuel with
  | zero =>
    intro i s _ hin
    exact ⟨[], by simp [main_capture_loop, Run.log], by simp [calls]; omega⟩
  | succ fuel ih =>
    intro i s hi hin
    unfold main_capture_loop
    by_cases hc : s.key ≠ 27 ∧ i < n
    · rw [if_pos hc]
      obtain ⟨new1, hl1, hc1⟩ := main_capture_body_log d keep_alive parser fuel i s
      cases hb : main_capture_body d keep_alive parser fuel i s with
      | done s1 =>
        rw [hb, Run.log] at hl1
        dsimp only
        rw [int32_of_range _ (by omega) (by have := hc.2; omega)]
        obtain ⟨new2, hl2, hc2⟩ := ih (i + 1) s1 (by omega) (by have := hc.2; omega)
        refine ⟨new1 ++ new2, by rw [hl2, hl1]; simp, ?_⟩
        rw [calls_append, List.count_append]
        push_cast
        rw [hc1]
        push_cast
        omega
      | terminated l =>
        rw [hb, Run.log] at hl1
        refine ⟨new1, by simp [Run.log, hl1], ?_⟩
        rw [hc1]
        have := hc.2
        push_cast
        omega
      | running l =>
        rw [hb, Run.log] at hl1
        refine ⟨new1, by simp [Run.log, hl1], ?_⟩
        rw [hc1]
        have := hc.2
        push_cast
        omega
    · rw [if_neg hc]
      exact ⟨[], by simp [Run.log], by simp [calls]; omega⟩

/-- A pass ends exactly when its retrieval succeeds or the reconnect loop it enters
ends. -/
theorem main_capture_body_ends_iff (d : Env) (keep_alive : Bool) (parser : Parser) (i : Int)
    (s : MainState) :
    (∃ fuel s1, main_capture_body d keep_alive parser fuel i s = Run.done s1) ↔
      (d.flag s.log (Call.retrieve (some keep_alive)) = some true ∨
        ∃ fuel s1, main_reopen_loop d keep_alive parser fuel
          { s with
            success := false
            log := capture_failure_log keep_alive i s
              (Reply.ofFlag (d.flag s.log (Call.retrieve (some keep_alive)))) }
          = Run.done s1) := by
  by_cases hf : d.flag s.log (Call.retrieve (some keep_alive)) = some true
  · refine ⟨fun _ => Or.inl hf, fun _ => ⟨0, ?_⟩⟩
    unfold main_capture_body
    simp only [hf, Option.getD_some, Bool.not_true, Bool.false_eq_true, if_false]
    split <;> exact ⟨_, rfl⟩
  · constructor
    · rintro ⟨fuel, s1, h⟩
      rw [main_capture_body_failed d keep_alive parser fuel i s hf] at h
      exact Or.inr ⟨fuel, s1, h⟩
    · rintro (h | ⟨fuel, s1, h⟩)
      · exact absurd h hf
      · exact ⟨fuel, s1, by rw [main_capture_body_failed d keep_alive parser fuel i s hf, h]⟩

/-- A capture loop with step 1 that ends has seen each of its passes end. -/
theorem passes_end_of_done (d : Env) (keep_alive : Bool) (parser : Parser)
    (n : Int) (hn : n ≤ 2147483647) (hkey : ∀ l, d.waitKey l ≠ 27) :
    ∀ (fuel : Nat) (i : Int) (s s' : MainState), 0 ≤ i → i ≤ n → s.key ≠ 27 →
      main_capture_loop d keep_alive parser n 1 fuel i s = Run.done s' →
      passes_end d keep_alive parser 1 (n - i).toNat i s := by
  intro fuel
  induction fuel with
  | zero =>
    intro i s s' _ _ _ h
    simp [main_capture_loop] at h
  | succ fuel ih =>
    intro i s s' hi hin hk h
    unfold main_capture_loop at h
    by_cases hc : s.key ≠ 27 ∧ i < n
    · rw [if_pos hc] at h
      have hlt := hc.2
      cases hb : main_capture_body d keep_alive parser fuel i s with
      | done s1 =>
        rw [hb] at h
        dsimp only at h
        have e : int32 (i + 1) = i + 1 := int32_of_range _ (by omega) (by omega)
        rw [e] at h
        obtain ⟨-, hk1⟩ := main_capture_body_done d keep_alive parser fuel i s s1 hb
        have hk1' : s1.key ≠ 27 := by
          rcases hk1 with e | ⟨l, e⟩
          · rw [e]; exact hk
          · rw [e]; exact hkey l
        have ih' := ih (i + 1) s1 s' (by omega) (by omega) hk1' h
        have hm : (n - i).toNat = (n - (i + 1)).toNat + 1 := by omega
        rw [hm]
        exact ⟨fuel, s1, hb, by rw [e]; exact ih'⟩
      | terminated l => rw [hb] at h; simp at h
      | running l => rw [hb] at h; simp at h
    · have : (n - i).toNat = 0 := by
        have : ¬ i < n := fun hlt => hc ⟨hk, hlt⟩
        omega
      rw [this]
      trivial

/-- A capture loop with step 1 whose passes all end does end. -/
theorem done_of_passes_end (d : Env) (keep_alive : Bool) (parser : Parser)
    (n : Int) (hn : n ≤ 2147483647) :
    ∀ (m : Nat) (i : Int) (s : MainState), 0 ≤ i → n - i ≤ (m : Int) →
      passes_end d keep_alive parser 1 m i s →
      ∃ fuel s', main_capture_loop d keep_alive parser n 1 fuel i s = Run.done s' := by
  intro m
  induction m with
  | zero =>
    intro i s _ hm _
    refine ⟨1, s, ?_⟩
    unfold main_capture_loop
    rw [if_neg]
    intro h
    have := h.2
    omega
  | succ m ih =>
    intro i s hi hm hp
    by_cases hc : s.key ≠ 27 ∧ i < n
    · obtain ⟨fb, s1, hb, hp1⟩ := hp
      have e : int32 (i + 1) = i + 1 :=
        int32_of_range _ (by omega) (by have := hc.2; omega)
      rw [e] at hp1
      obtain ⟨f2, s', h2⟩ := ih (i + 1) s1 (by omega) (by push_cast at hm; omega) hp1
      refine ⟨max fb f2 + 1, s', ?_⟩
      unfold main_capture_loop
      rw [if_pos hc, main_capture_body_mono_le d keep_alive parser i s s1 fb _
        (le_max_left fb f2) hb]
      dsimp only
      rw [e]
      exact main_capture_loop_mono_le d keep_alive parser n 1 _ s1 s' f2 _
        (le_max_right fb f2) h2
    · refine ⟨1, s, ?_⟩
      unfold main_capture_loop
      rw [if_neg hc]

/-- With the lost camera the reconnect loop never ends, and it issues no retrieval. -/
theorem main_reopen_loop_lost (parser : Parser) (fuel : Nat) :
    ∀ s : MainState, ∃ l, main_reopen_loop lost_camera true parser fuel s = Run.running l ∧
      List.count (Call.retrieve (some true)) (calls l)
        = List.count (Call.retrieve (some true)) (calls s.log) := by
  induction fuel with
  | zero =>
    intro s
    exact ⟨s.log, rfl, rfl⟩
  | succ fuel ih =>
    intro s
    have ho : open_camera lost_camera true parser s.log
        = (false, s.log ++ [Event.request (Call.isOpened (some true))
            Reply.RemoteException]) := rfl
    obtain ⟨l, h1, h2⟩ := ih (report_failed_attempt
      { s with log := (open_camera lost_camera true parser s.log).2 })
    refine ⟨l, ?_, ?_⟩
    · conv_lhs => unfold main_reopen_loop
      simp only [ho, Bool.not_false, if_true]
      rw [ho] at h1
      exact h1
    · rw [h2, ho]
      simp [report_failed_attempt, calls]

/-- With the lost camera the capture loop never ends, and it issues one retrieval at
most. -/
theorem main_capture_loop_lost (fuel : Nat) :
    ∃ l, main_capture_loop lost_camera true two_passes (max_iterations two_passes)
        (inc two_passes) fuel 0 (startup_state []) = Run.running l ∧
      List.count (Call.retrieve (some true)) (calls l) ≤ 1 := by
  cases fuel with
  | zero => exact ⟨[], rfl, by simp [calls]⟩
  | succ fuel =>
    have hf : lost_camera.flag (startup_state []).log (Call.retrieve (some true))
        ≠ some true := by simp [lost_camera]
    obtain ⟨l, h1, h2⟩ := main_reopen_loop_lost two_passes fuel
      { startup_state [] with
        success := false
        log := capture_failure_log true 0 (startup_state [])
              (Reply.ofFlag (lost_camera.flag (startup_state []).log
                (Call.retrieve (some true)))) }
    refine ⟨l, ?_, ?_⟩
    · conv_lhs => unfold main_capture_loop
      rw [if_pos (by decide),
        main_capture_body_failed lost_camera true two_passes fuel 0 (startup_state []) hf, h1]
    · rw [h2]
      decide

/-- C10, as stated, fails: with `max-iterations = 2`, no key pressed and a camera that is
lost, the first retrieval fails and the reconnect loop never ends; the capture loop never
ends and its body never runs a second time. -/
theorem main_capture_loop_never_back :
    max_iterations two_passes = 2 ∧
    (startup_state []).key ≠ 27 ∧
    (¬ ∃ l, lost_camera.waitKey l = 27) ∧
    (¬ ∃ fuel s', main_capture_loop lost_camera true two_passes (max_iterations two_passes)
      (inc two_passes) fuel 0 (startup_state []) = Run.done s') ∧
    (¬ ∃ fuel, 1 < List.count (Call.retrieve (some true))
      (calls (main_capture_loop lost_camera true two_passes (max_iterations two_passes)
        (inc two_passes) fuel 0 (startup_state [])).log)) := by
  refine ⟨by decide, by decide, ?_, ?_, ?_⟩
  · rintro ⟨l, h⟩
    simp [lost_camera] at h
  · rintro ⟨fuel, s', h⟩
    obtain ⟨l, h1, -⟩ := main_capture_loop_lost fuel
    rw [h1] at h
    simp at h
  · rintro ⟨fuel, h⟩
    obtain ⟨l, h1, h2⟩ := main_capture_loop_lost fuel
    rw [h1, Run.log] at h
    omega

/-- C10, amended: the capture loop of `main` runs with the bound `max_iterations = max(1,
configured value)` and the step `inc = 1` if `max_iterations > 1`, else `0`.  When the
configured value is at most 1, the bound is 1 and the step is 0: after a pass started
with `i = 0` the loop goes on with `i = 0`, and it can only end with `key = 27`.  When the
configured value `n` is at least 2 (an `int`) and the key is never 27, the loop never
makes more than `n` passes; it ends exactly when each of its `n` passes ends, that is
when every reconnect loop it enters after a failed retrieval ends; and a loop that ends
has made exactly `n` passes, one retrieval each, whether the retrieval failed or not. -/
theorem main_capture_loop_iterations (d : Env) (keep_alive : Bool) (parser : Parser)
    (s : MainState) :
    max_iterations parser = max 1 parser.max_iterations ∧
    inc parser = (if max_iterations parser > 1 then 1 else 0) ∧
    (parser.max_iterations ≤ 1 →
      max_iterations parser = 1 ∧ inc parser = 0 ∧
      (∀ fuel, s.key ≠ 27 →
        main_capture_loop d keep_alive parser (max_iterations parser) (inc parser)
            (fuel + 1) 0 s
          = match main_capture_body d keep_alive parser fuel 0 s with
            | Run.done s1 =>
              main_capture_loop d keep_alive parser (max_iterations parser) (inc parser)
                fuel 0 s1
            | Run.terminated l => Run.terminated l
            | Run.running l => Run.running l) ∧
      (∀ fuel s',
        main_capture_loop d keep_alive parser (max_iterations parser) (inc parser) fuel 0 s
          = Run.done s' → s'.key = 27)) ∧
    (2 ≤ parser.max_iterations → parser.max_iterations ≤ 2147483647 → s.key ≠ 27 →
      (∀ l, d.waitKey l ≠ 27) →
      (∀ fuel, ∃ new,
        (main_capture_loop d keep_alive parser (max_iterations parser) (inc parser)
          fuel 0 s).log = s.log ++ new ∧
        (List.count (Call.retrieve (some keep_alive)) (calls new) : Int)
          ≤ parser.max_iterations) ∧
      (∀ fuel s',
        main_capture_loop d keep_alive parser (max_iterations parser) (inc parser) fuel 0 s
          = Run.done s' →
        ∃ new, s'.log = s.log ++ new ∧
          (List.count (Call.retrieve (some keep_alive)) (calls new) : Int)
            = parser.max_iterations) ∧
      ((∃ fuel s',
          main_capture_loop d keep_alive parser (max_iterations parser) (inc parser) fuel 0 s
            = Run.done s') ↔
        passes_end d keep_alive parser (inc parser) parser.max_iterations.toNat 0 s)) ∧
    (∀ (i : Int) (t : MainState),
      (∃ fuel t', main_capture_body d keep_alive parser fuel i t = Run.done t') ↔
        (d.flag t.log (Call.retrieve (some keep_alive)) = some true ∨
          ∃ fuel t', main_reopen_loop d keep_alive parser fuel
            { t with
              success := false
              log := capture_failure_log keep_alive i t
                (Reply.ofFlag (d.flag t.log (Call.retrieve (some keep_alive)))) }
            = Run.done t')) := by
  refine ⟨rfl, rfl, ?_, ?_, ?_⟩
  · intro hle
    have hm : max_iterations parser = 1 := by
      unfold max_iterations
      exact max_eq_left hle
    have hi : inc parser = 0 := by
      unfold inc
      rw [hm]
      rfl
    rw [hm, hi]
    refine ⟨rfl, rfl, ?_, ?_⟩
    · intro fuel hk
      conv_lhs => unfold main_capture_loop
      rw [if_pos ⟨hk, by decide⟩]
      rfl
    · intro fuel s' h
      exact main_capture_loop_only_key d keep_alive parser fuel s s' h
  · intro h2 hmax hk hkey
    have hm : max_iterations parser = parser.max_iterations := by
      unfold max_iterations
      exact max_eq_right (by omega)
    have hi : inc parser = 1 := by
      unfold inc
      rw [hm, if_pos (by omega)]
    rw [hm, hi]
    refine ⟨?_, ?_, ?_, ?_⟩
    · intro fuel
      obtain ⟨new, h1, h2⟩ := main_capture_loop_at_most d keep_alive parser
        parser.max_iterations hmax fuel 0 s (by omega) (by omega)
      exact ⟨new, h1, by omega⟩
    · intro fuel s' h
      obtain ⟨new, h1, h2⟩ := main_capture_loop_count d keep_alive parser
        parser.max_iterations hmax hkey fuel 0 s s' (by omega) (by omega) hk h
      exact ⟨new, h1, by rw [h2]; ring⟩
    · rintro ⟨fuel, s', h⟩
      have := passes_end_of_done d keep_alive parser parser.max_iterations hmax hkey fuel 0
        s s' (by omega) (by omega) hk h
      simpa using this
    · intro hp
      exact done_of_passes_end d keep_alive parser parser.max_iterations hmax
        parser.max_iterations.toNat 0 s (by omega) (by omega) hp
  · intro i t
    exact main_capture_body_ends_iff d keep_alive parser i t

/-- C10, amended, at a camera whose retrievals all throw and that reopens at once, with
`max-iterations = 2`: both passes end, so the loop ends, after two retrievals. -/
theorem main_capture_loop_iterations_witness :
    (∃ fuel s',
      main_capture_loop (faulty_camera 0) true two_passes (max_iterations two_passes)
        (inc two_passes) fuel 0 (startup_state []) = Run.done s') ∧
    (∀ fuel s',
      main_capture_loop (faulty_camera 0) true two_passes (max_iterations two_passes)
        (inc two_passes) fuel 0 (startup_state []) = Run.done s' →
      ∃ new, s'.log = (startup_state []).log ++ new ∧
        (List.count (Call.retrieve (some true)) (calls new) : Int)
          = two_passes.max_iterations) :=
  have h := (main_capture_loop_iterations (faulty_camera 0) true two_passes
    (startup_state [])).2.2.2.1 (by decide) (by decide) (by decide)
    (fun _ => by simp [faulty_camera])
  ⟨h.2.2.mpr ⟨1, _, rfl, 1, _, rfl, trivial⟩, h.2.1⟩

end Basic
